import Mathlib

/-!
Kanister: a verification development

Shallow embedding of five source files of the Kanister repository:

* `pkg/kube/kubectl.go`                              (generic manifest creation helper)
* `pkg/apis/cr/v1alpha1/zz_generated.deepcopy.go`    (generated deep copies of the CRD types)
* `pkg/function/restore_csi_snapshot_test.go`        (tests of the CSI snapshot restore step)
* `pkg/kando/process_client_get.go`                  (the `kando process client get` command)
* `pkg/handler/handler.go`                           (health check handler)

Conventions of the embedding.

* A Go `error` is an `Option Error`: `none` is the nil error.
* A Go pointer `*T` is an `Option T`: `none` is the nil pointer.
* A Go slice `[]T` is an `Option (List T)`: `none` is the nil slice, `some []` an empty
  non-nil slice (capacity is not modelled).
* A Go map `map[string]V` is an `Option (GoMap V)`; a `GoMap` is a list of entries with
  pairwise distinct keys, the order of the list being the order in which `range` visits it.
* Calls into the cluster, into libraries and into packages that are not part of the five
  files are parameters of the embedding.
-/

namespace Kanister

/-- Go errors are represented by their message. -/
abbrev Error := String

/-! ## pkg/apis/cr/v1alpha1: ObjectReference -/

/-- Modelled from the spec: the type declaration of `ObjectReference` (types.go) is not among
the source files; the fields are the ones `kubectl.go` assigns, "a
group/version/resource/name/namespace tuple identifying any cluster object generically". -/
structure ObjectReference where
  APIVersion : String
  Group : String
  Resource : String
  Name : String
  Namespace : String
  deriving DecidableEq, Repr, Inhabited

/-! ## pkg/kube/kubectl.go -/

namespace kube

/-- The Go type `Operation` is a string. -/
abbrev Operation := String

/-- Source constant `CreateOperation`. -/
def CreateOperation : Operation := "create"

/-- Library type `schema.GroupVersionResource`. -/
structure GroupVersionResource where
  Group : String
  Version : String
  Resource : String
  deriving DecidableEq, Repr, Inhabited

/-- Library type `meta.RESTMapping`, reduced to the field the source reads. -/
structure RESTMapping where
  Resource : GroupVersionResource
  deriving DecidableEq, Repr, Inhabited

/-- Library type `resource.Info`, reduced to the fields the source reads; `O` is the type of
runtime objects. -/
structure Info (O : Type) where
  Namespace : String
  Mapping : RESTMapping
  Object : O

/-- Content of an `unstructured.Unstructured`: a JSON-like tree. -/
inductive UValue where
  | str (s : String)
  | obj (fields : List (String × UValue))
  | other

/-- Library function `unstructured.NestedString` for a path of two fields: the string found at
`fields[a][b]`, the empty string when the path is missing or does not end in a string. -/
def nestedString2 (content : List (String × UValue)) (a b : String) : String :=
  match content.lookup a with
  | some (UValue.obj inner) =>
    match inner.lookup b with
    | some (UValue.str s) => s
    | _ => ""
  | _ => ""

/-- Library type `unstructured.Unstructured`. -/
structure Unstructured where
  Object : List (String × UValue)

/-- Library method `Unstructured.GetName`: `metadata.name`. -/
def Unstructured.GetName (us : Unstructured) : String :=
  nestedString2 us.Object "metadata" "name"

/-- Library method `Unstructured.GetNamespace`: `metadata.namespace`. -/
def Unstructured.GetNamespace (us : Unstructured) : String :=
  nestedString2 us.Object "metadata" "namespace"

/-- Library type `resource.Result` as seen by the source: the error of the builder and the
sequence of `(info, err)` pairs that `Visit` hands to its visitor function, in order. -/
structure Result (O : Type) where
  err : Option Error
  items : List (Info O × Option Error)

/-- What `create` calls outside of its own file. `σ` is the state of the cluster, `O` the type
of runtime objects.
* `builderDo s specs namespace` is
  `factory.NewBuilder().Unstructured().NamespaceParam(namespace).Stream(specs, "resource").Flatten().Do()`;
* `helperCreate s mapping namespace obj` is
  `resource.NewHelper(info.Client, mapping).WithFieldManager("kanister-create").Create(namespace, true, obj)`:
  the new cluster state, the returned object and the returned error;
* `toUnstructured obj` is `runtime.DefaultUnstructuredConverter.ToUnstructured(obj)`. -/
structure Cluster (σ O : Type) where
  builderDo : σ → String → String → Result O
  helperCreate : σ → RESTMapping → String → O → σ × Option O × Option Error
  toUnstructured : Option O → Except Error (List (String × UValue))

/-- Source type `KubectlOperation`; the factory is the `Cluster` parameter and `specs` is the
text behind the reader (the field `namespace` is written `ns`). -/
structure KubectlOperation where
  specs : String
  ns : String
  deriving DecidableEq, Repr

/-- Source function `NewKubectlOperations`. -/
def NewKubectlOperations (specsString ns : String) : KubectlOperation :=
  { specs := specsString, ns := ns }

/-- Library method `Result.Visit` (with no ignored errors and without `ContinueOnError`): a
non-nil builder error is returned at once; otherwise the visitor function is called on each
item in order, and the first non-nil error it returns ends the visit and is returned. `α` is
the state the visitor function mutates. -/
def visitItems {O α : Type} (fn : α → Info O → Option Error → α × Option Error) :
    α → List (Info O × Option Error) → α × Option Error
  | a, [] => (a, none)
  | a, (info, err) :: rest =>
    match fn a info err with
    | (a1, some e) => (a1, some e)
    | (a1, none) => visitItems fn a1 rest

/-- Library method `Result.Visit`, see `visitItems`. -/
def Result.Visit {O α : Type} (r : Result O)
    (fn : α → Info O → Option Error → α × Option Error) (a : α) : α × Option Error :=
  match r.err with
  | some e => (a, some e)
  | none => visitItems fn a r.items

/-- The namespace handed to `Create`: lines 66-70 of `kubectl.go`. -/
def targetNamespace {O : Type} (k : KubectlOperation) (info : Info O) : String :=
  if info.Namespace ≠ "" then info.Namespace else k.ns

/-- The closure passed to `result.Visit` in `create` (lines 62-89). Its mutable state is the
cluster and the captured variable `objRef`. The error returned by `Create` is assigned to
`err` and then overwritten by the error of `ToUnstructured` before it is read. -/
def createVisitor {σ O : Type} (c : Cluster σ O) (k : KubectlOperation)
    (st : σ × Option ObjectReference) (info : Info O) (err : Option Error) :
    (σ × Option ObjectReference) × Option Error :=
  match err with
  | some e => (st, some e)
  | none =>
    let ns := targetNamespace k info
    match c.helperCreate st.1 info.Mapping ns info.Object with
    | (s1, obj, _) =>
      match c.toUnstructured obj with
      | Except.error e => ((s1, st.2), some e)
      | Except.ok unstructObj =>
        let us : Unstructured := { Object := unstructObj }
        ((s1, some { APIVersion := info.Mapping.Resource.Version
                     Group := info.Mapping.Resource.Group
                     Resource := info.Mapping.Resource.Resource
                     Name := us.GetName
                     Namespace := us.GetNamespace }), none)

/-- Result of `create` and `Execute`: the cluster state reached, the returned
`*ObjectReference` and the returned error. -/
structure Outcome (σ : Type) where
  cluster : σ
  objRef : Option ObjectReference
  err : Option Error

/-- Source method `KubectlOperation.create`. -/
def KubectlOperation.create {σ O : Type} (c : Cluster σ O) (k : KubectlOperation) (s : σ) :
    Outcome σ :=
  let result := c.builderDo s k.specs k.ns
  match result.err with
  | some e => { cluster := s, objRef := none, err := some e }
  | none =>
    match result.Visit (createVisitor c k) (s, none) with
    | ((s1, objRef), err) => { cluster := s1, objRef := objRef, err := err }

/-- Source method `KubectlOperation.Execute`. -/
def KubectlOperation.Execute {σ O : Type} (c : Cluster σ O) (k : KubectlOperation)
    (op : Operation) (s : σ) : Outcome σ :=
  if op = CreateOperation then k.create c s
  else { cluster := s, objRef := none, err := some "not implemented" }

/-- The creations `create` performs when no step fails: for each object of the manifest,
in order, the info, the object returned by `Create` and the error returned by `Create`. -/
def creations {σ O : Type} (c : Cluster σ O) (k : KubectlOperation) :
    σ → List (Info O × Option Error) → List (Info O × Option O × Option Error)
  | _, [] => []
  | s, (info, _) :: rest =>
    match c.helperCreate s info.Mapping (targetNamespace k info) info.Object with
    | (s1, obj, err) => (info, obj, err) :: creations c k s1 rest

/-- The reference `create` builds for an object: group, version and resource of the REST
mapping, name and namespace read from the unstructured form `u` of the created object. -/
def referenceOf {O : Type} (info : Info O) (u : List (String × UValue)) : ObjectReference :=
  { APIVersion := info.Mapping.Resource.Version
    Group := info.Mapping.Resource.Group
    Resource := info.Mapping.Resource.Resource
    Name := Unstructured.GetName { Object := u }
    Namespace := Unstructured.GetNamespace { Object := u } }

/-- One object of the manifest is handled successfully: `Create` returns no error, and the
object `Create` returns converts to unstructured form. -/
def Created {σ O : Type} (c : Cluster σ O) (x : Info O × Option O × Option Error) : Prop :=
  x.2.2 = none ∧ ∃ u, c.toUnstructured x.2.1 = Except.ok u

/-- The references `create` builds for a sequence of creations, in order: one for each
creation whose returned object converts to unstructured form. -/
def references {σ O : Type} (c : Cluster σ O) :
    List (Info O × Option O × Option Error) → List ObjectReference
  | [] => []
  | (info, obj, _) :: rest =>
    match c.toUnstructured obj with
    | Except.ok u => referenceOf info u :: references c rest
    | Except.error _ => references c rest

/-! ### A small cluster used for concrete runs -/

/-- Objects of the demonstration cluster: name and namespace. -/
structure DemoObject where
  name : String
  ns : String
  deriving DecidableEq, Repr

/-- Unstructured form of a demonstration object. -/
def DemoObject.content (o : DemoObject) : List (String × UValue) :=
  [("metadata", UValue.obj [("name", UValue.str o.name), ("namespace", UValue.str o.ns)])]

/-- Mapping of config maps. -/
def configMapMapping : RESTMapping :=
  { Resource := { Group := "", Version := "v1", Resource := "configmaps" } }

/-- Mapping of deployments. -/
def deploymentMapping : RESTMapping :=
  { Resource := { Group := "apps", Version := "v1", Resource := "deployments" } }

/-- Splits a list of characters at the commas. -/
def splitComma : List Char → List (List Char)
  | [] => [[]]
  | ch :: rest =>
    match splitComma rest with
    | [] => [[ch]]
    | w :: ws => if ch = ',' then [] :: w :: ws else (ch :: w) :: ws

/-- Demonstration cluster. The state counts the objects created. The manifest text is a
comma separated list of object names; a name starting with the letter d is a deployment, any
other a config map. `Create` stores the object in the namespace it is given and never
fails. -/
def demoCluster : Cluster Nat DemoObject where
  builderDo := fun _ specs _ =>
    { err := none
      items := (splitComma specs.data).map fun n =>
        (({ Namespace := ""
            Mapping := if n.head? = some 'd' then deploymentMapping else configMapMapping
            Object := { name := String.mk n, ns := "" } } : Info DemoObject), none) }
  helperCreate := fun s _ ns o => (s + 1, some { o with ns := ns }, none)
  toUnstructured := fun o =>
    match o with
    | some x => Except.ok x.content
    | none => Except.error "nil object"

/-- A cluster that behaves as `c` and keeps, next to the state of `c`, the list of the calls
of `Create` made so far: the namespace and the object of each call, in order. -/
def recording {σ O : Type} (c : Cluster σ O) : Cluster (σ × List (String × O)) O where
  builderDo := fun st specs ns => c.builderDo st.1 specs ns
  helperCreate := fun st mapping ns obj =>
    match c.helperCreate st.1 mapping ns obj with
    | (s1, o, e) => ((s1, st.2 ++ [(ns, obj)]), o, e)
  toUnstructured := c.toUnstructured

/-- A cluster that behaves as `c`, except that `Create` never returns an error. -/
def withoutCreateError {σ O : Type} (c : Cluster σ O) : Cluster σ O where
  builderDo := c.builderDo
  helperCreate := fun s mapping ns obj =>
    match c.helperCreate s mapping ns obj with
    | (s1, o, _) => (s1, o, none)
  toUnstructured := c.toUnstructured

/-- Splits `ns/name` at the first slash; `none` when there is no slash. -/
def splitSlash : List Char → Option (List Char × List Char)
  | [] => none
  | ch :: rest =>
    if ch = '/' then some ([], rest)
    else
      match splitSlash rest with
      | some (a, b) => some (ch :: a, b)
      | none => none

/-- Demonstration cluster whose manifests may set the namespace of an object: the manifest
text is a comma separated list of `name` or `namespace/name`. Otherwise as `demoCluster`. -/
def namespacedCluster : Cluster Nat DemoObject where
  builderDo := fun _ specs _ =>
    { err := none
      items := (splitComma specs.data).map fun n =>
        match splitSlash n with
        | some (a, b) =>
          (({ Namespace := String.mk a, Mapping := configMapMapping
              Object := { name := String.mk b, ns := String.mk a } } : Info DemoObject), none)
        | none =>
          (({ Namespace := "", Mapping := configMapMapping
              Object := { name := String.mk n, ns := "" } } : Info DemoObject), none) }
  helperCreate := demoCluster.helperCreate
  toUnstructured := demoCluster.toUnstructured

/-- Demonstration cluster that rejects every creation, as `resource.Helper.Create` does on
each of its error paths: `Create` leaves the cluster as it is and returns a nil object
together with the error. Otherwise as `demoCluster`. -/
def rejectingCluster : Cluster Nat DemoObject where
  builderDo := demoCluster.builderDo
  helperCreate := fun s _ _ _ => (s, none, some "already exists")
  toUnstructured := demoCluster.toUnstructured

/-- Mapping of the resource `namespaces`, which is cluster-scoped. -/
def namespaceMapping : RESTMapping :=
  { Resource := { Group := "", Version := "v1", Resource := "namespaces" } }

/-- Demonstration cluster with a cluster-scoped resource. The state is the list of the
objects stored, each with the namespace it is stored in. The manifest text is a comma
separated list of object names; a name starting with the letter n is an object of the
cluster-scoped resource `namespaces`, any other a config map. `Create` stores a config map
in the namespace it is handed, and an object of a cluster-scoped resource in no namespace,
whatever namespace it is handed (the library applies the namespace only to namespaced
resources). -/
def scopedCluster : Cluster (List DemoObject) DemoObject where
  builderDo := fun _ specs _ =>
    { err := none
      items := (splitComma specs.data).map fun n =>
        (({ Namespace := ""
            Mapping := if n.head? = some 'n' then namespaceMapping else configMapMapping
            Object := { name := String.mk n, ns := "" } } : Info DemoObject), none) }
  helperCreate := fun s mapping ns o =>
    if mapping = namespaceMapping then (s ++ [{ o with ns := "" }], some { o with ns := "" }, none)
    else (s ++ [{ o with ns := ns }], some { o with ns := ns }, none)
  toUnstructured := demoCluster.toUnstructured

/-! ### Runs that may panic

In the definitions above `ToUnstructured` is a function that returns. The converter of the
library does not return on a nil object: it asks the kind of the nil type of the object, a nil
pointer dereference. The definitions below embed `create` again with this behaviour. -/

/-- Result of a Go call: it returns a value or it panics. -/
inductive Run (α : Type) where
  | returned (value : α)
  | panicked (message : String)

/-- The value a run returns, `none` for a run that panics. -/
def Run.value? {α : Type} : Run α → Option α
  | Run.returned value => some value
  | Run.panicked _ => none

/-- Library function `runtime.DefaultUnstructuredConverter.ToUnstructured` with its behaviour
on a nil object: a nil pointer dereference. On a non-nil object it is the converter of the
cluster. -/
def toUnstructuredOrPanic {σ O : Type} (c : Cluster σ O) (obj : Option O) :
    Run (Except Error (List (String × UValue))) :=
  match obj with
  | none => Run.panicked "runtime error: invalid memory address or nil pointer dereference"
  | some o => Run.returned (c.toUnstructured (some o))

/-- The closure passed to `result.Visit` in `create` (lines 62-89), as `createVisitor`, with
the panic of `ToUnstructured` on a nil object. -/
def createVisitorOrPanic {σ O : Type} (c : Cluster σ O) (k : KubectlOperation)
    (st : σ × Option ObjectReference) (info : Info O) (err : Option Error) :
    Run ((σ × Option ObjectReference) × Option Error) :=
  match err with
  | some e => Run.returned (st, some e)
  | none =>
    let ns := targetNamespace k info
    match c.helperCreate st.1 info.Mapping ns info.Object with
    | (s1, obj, _) =>
      match toUnstructuredOrPanic c obj with
      | Run.panicked message => Run.panicked message
      | Run.returned (Except.error e) => Run.returned ((s1, st.2), some e)
      | Run.returned (Except.ok unstructObj) =>
        let us : Unstructured := { Object := unstructObj }
        Run.returned
          ((s1, some { APIVersion := info.Mapping.Resource.Version
                       Group := info.Mapping.Resource.Group
                       Resource := info.Mapping.Resource.Resource
                       Name := us.GetName
                       Namespace := us.GetNamespace }), none)

/-- Library method `Result.Visit`, as `visitItems`, for a visitor function that may panic: a
panic of the visitor function ends the visit. -/
def visitItemsOrPanic {O α : Type} (fn : α → Info O → Option Error → Run (α × Option Error)) :
    α → List (Info O × Option Error) → Run (α × Option Error)
  | a, [] => Run.returned (a, none)
  | a, (info, err) :: rest =>
    match fn a info err with
    | Run.panicked message => Run.panicked message
    | Run.returned (a1, some e) => Run.returned (a1, some e)
    | Run.returned (a1, none) => visitItemsOrPanic fn a1 rest

/-- Source method `KubectlOperation.create`, as `KubectlOperation.create`, with the panic of
`ToUnstructured` on a nil object. -/
def createOrPanic {σ O : Type} (c : Cluster σ O) (k : KubectlOperation) (s : σ) :
    Run (Outcome σ) :=
  let result := c.builderDo s k.specs k.ns
  match result.err with
  | some e => Run.returned { cluster := s, objRef := none, err := some e }
  | none =>
    match visitItemsOrPanic (createVisitorOrPanic c k) (s, none) result.items with
    | Run.panicked message => Run.panicked message
    | Run.returned ((s1, objRef), err) =>
      Run.returned { cluster := s1, objRef := objRef, err := err }

/-- Source method `KubectlOperation.Execute`, as `KubectlOperation.Execute`, with the panic of
`ToUnstructured` on a nil object. -/
def ExecuteOrPanic {σ O : Type} (c : Cluster σ O) (k : KubectlOperation) (op : Operation)
    (s : σ) : Run (Outcome σ) :=
  if op = CreateOperation then createOrPanic c k s
  else Run.returned { cluster := s, objRef := none, err := some "not implemented" }

end kube

/-! ## Go slices and maps -/

/-- Go built-in `make([]T, n)`: n zero values. -/
def makeSlice {α : Type} (zero : α) (n : Nat) : List α :=
  List.replicate n zero

/-- Go built-in `copy(dst, src)`: the first `min(len(dst), len(src))` elements of `dst` are
overwritten with those of `src`; the value is the new content of `dst`. -/
def copySlice {α : Type} (dst src : List α) : List α :=
  src.take (min dst.length src.length) ++ dst.drop (min dst.length src.length)

/-- The loop `for i := range *in { (*in)[i].DeepCopyInto(&(*out)[i]) }`: for each index `i`
of `src` in increasing order, `dst[i]` is replaced by `f src[i] dst[i]`. -/
def forRangeInto {α β : Type} (f : α → β → β) (src : List α) (dst : List β) : List β :=
  (List.range src.length).foldl
    (fun out i =>
      match src[i]?, out[i]? with
      | some x, some y => out.set i (f x y)
      | _, _ => out)
    dst

/-- Assignment `m[k] = v` on a list of entries: the value of an existing key is replaced in
place, a new key is added at the end. -/
def setEntry {V : Type} (k : String) (v : V) : List (String × V) → List (String × V)
  | [] => [(k, v)]
  | (k1, v1) :: rest => if k1 = k then (k, v) :: rest else (k1, v1) :: setEntry k v rest

/-- A non-nil Go map with string keys: entries with pairwise distinct keys. The order of the
entries is the order in which a `range` loop visits the map (any order is possible). -/
def GoMap (V : Type) : Type :=
  { l : List (String × V) // (l.map Prod.fst).Nodup }

namespace GoMap

/-- Go built-in `make(map[string]V, n)`: the empty map. -/
def make {V : Type} : GoMap V :=
  ⟨[], List.nodup_nil⟩

/-- Go assignment `m[k] = v`. -/
def set {V : Type} (m : GoMap V) (k : String) (v : V) : GoMap V :=
  ⟨setEntry k v m.1, by
    have keys : ∀ l : List (String × V), (setEntry k v l).map Prod.fst =
        if k ∈ l.map Prod.fst then l.map Prod.fst else l.map Prod.fst ++ [k] := by
      intro l
      induction l with
      | nil => simp [setEntry]
      | cons e rest ih =>
        obtain ⟨k1, v1⟩ := e
        by_cases h : k1 = k
        · simp [setEntry, h]
        · have h2 : ¬ k = k1 := fun h3 => h h3.symm
          by_cases hm : k ∈ rest.map Prod.fst
          · simp only [setEntry, h, if_false, List.map_cons, ih, hm, if_true, List.mem_cons,
              or_true]
          · simp only [setEntry, h, if_false, List.map_cons, ih, hm, List.mem_cons, h2,
              or_self, List.cons_append]
    rw [keys]
    by_cases hm : k ∈ m.1.map Prod.fst
    · simpa [hm] using m.2
    · simp only [hm, if_false]
      exact List.Nodup.append m.2 (List.nodup_singleton k) (by simpa using hm)⟩

/-- Go lookup `m[k]` with the presence flag. -/
def get? {V : Type} (m : GoMap V) (k : String) : Option V :=
  m.1.lookup k

/-- The keys of the map. -/
def keys {V : Type} (m : GoMap V) : List String :=
  m.1.map Prod.fst

/-- The loop `*out = make(map[string]W, len(*in)); for key, val := range *in
{ (*out)[key] = f(val) }` of the generated deep copies. -/
def rangeCopy {V W : Type} (f : V → W) (m : GoMap V) : GoMap W :=
  m.1.foldl (fun out e => out.set e.1 (f e.2)) make

end GoMap

/-! ## pkg/apis/cr/v1alpha1: the CRD types

The type declarations (types.go) are not among the source files. Each structure below has
the fields the generated deep copy functions read, and the fields the spec names. -/

/-- Library type `metav1.TypeMeta`. -/
structure TypeMeta where
  Kind : String
  APIVersion : String
  deriving Inhabited

/-- Library type `metav1.ObjectMeta`, reduced to four of its fields. -/
structure ObjectMeta where
  Name : String
  Namespace : String
  ResourceVersion : String
  Labels : Option (GoMap String)
  deriving Inhabited

/-- Type of the parameter standing for `ObjectMeta.DeepCopyInto`: from `in` and the old `*out`
to the new `*out`. -/
abbrev MetaCopy := ObjectMeta → ObjectMeta → ObjectMeta

/-- Modelled from the spec: the declaration of `Artifact` is missing; "an immutable named bag
of key/value strings". -/
structure Artifact where
  KeyValue : Option (GoMap String)
  deriving Inhabited

/-- Modelled from the spec: the declaration of `State` is missing; a Go string type. -/
abbrev State := String

/-- Modelled from the spec: the declaration of `Phase` is missing; "{Name, State}". -/
structure Phase where
  Name : String
  State : State
  deriving Inhabited

/-- Modelled from the spec: the declaration of `ActionSpec` is missing; the action to run, the
target object, the Blueprint, and the bound artifacts, config maps and secrets. -/
structure ActionSpec where
  Name : String
  Object : ObjectReference
  Blueprint : String
  Artifacts : Option (GoMap Artifact)
  ConfigMaps : Option (GoMap ObjectReference)
  Secrets : Option (GoMap ObjectReference)
  deriving Inhabited

/-- Modelled from the spec: the declaration of `ActionStatus` is missing; "an ordered list of
Phase (name + state), and the map of rendered output Artifacts". -/
structure ActionStatus where
  Name : String
  Object : ObjectReference
  Blueprint : String
  Phases : Option (List Phase)
  Artifacts : Option (GoMap Artifact)
  deriving Inhabited

/-- Modelled from the spec: the declaration of `ActionSetSpec` is missing; "a list of
ActionSpec (desired)". -/
structure ActionSetSpec where
  Actions : Option (List ActionSpec)
  deriving Inhabited

/-- Modelled from the spec: the declaration of `ActionSetStatus` is missing; "a parallel list
of ActionStatus (observed), plus an aggregate state". -/
structure ActionSetStatus where
  State : State
  Actions : Option (List ActionStatus)
  deriving Inhabited

/-- Modelled from the spec: the declaration of `ActionSet` is missing; "the top-level
request/result object". `Spec` and `Status` are pointers. -/
structure ActionSet where
  TypeMeta : TypeMeta
  ObjectMeta : ObjectMeta
  Spec : Option ActionSetSpec
  Status : Option ActionSetStatus
  deriving Inhabited

/-- Modelled from the spec: the declaration of `BlueprintPhase` is missing; "a function name
(Func), a human-readable name, and an ordered list of templated argument strings". -/
structure BlueprintPhase where
  Func : String
  Name : String
  Args : Option (List String)
  deriving Inhabited

/-- Modelled from the spec: the declaration of `BlueprintAction` is missing; "ordered list of
BlueprintPhase, names of required config maps and secrets, names of required input
artifacts, and a mapping of output-artifact name to output-artifact template". -/
structure BlueprintAction where
  Name : String
  Kind : String
  ConfigMapNames : Option (List String)
  SecretNames : Option (List String)
  InputArtifactNames : Option (List String)
  OutputArtifacts : Option (GoMap Artifact)
  Phases : Option (List BlueprintPhase)
  deriving Inhabited

/-- Modelled from the spec: the declaration of `Blueprint` is missing; "a mapping from
action-kind name to a BlueprintAction". The values of the map are pointers. -/
structure Blueprint where
  TypeMeta : TypeMeta
  ObjectMeta : ObjectMeta
  Actions : Option (GoMap (Option BlueprintAction))
  deriving Inhabited

/-! ## pkg/apis/cr/v1alpha1/zz_generated.deepcopy.go

`DeepCopyInto in out` is the value `*out` holds when the Go method returns. The two copy
functions that are called but not defined in the file are parameters:
`omCopy in out` for `in.ObjectMeta.DeepCopyInto(&out.ObjectMeta)` and
`artCopy val` for `*val.DeepCopy()` on an `Artifact`. -/

/-- Source method `Phase.DeepCopyInto`. -/
def Phase.DeepCopyInto (inp _out : Phase) : Phase :=
  inp

/-- Source method `ObjectReference.DeepCopyInto`. -/
def ObjectReference.DeepCopyInto (inp _out : ObjectReference) : ObjectReference :=
  inp

/-- Source method `ActionSpec.DeepCopyInto`. -/
def ActionSpec.DeepCopyInto (artCopy : Artifact → Artifact) (inp _out : ActionSpec) :
    ActionSpec :=
  let out := inp
  let out := { out with Object := inp.Object }
  let out :=
    match inp.Artifacts with
    | none => out
    | some m => { out with Artifacts := some (GoMap.rangeCopy artCopy m) }
  let out :=
    match inp.ConfigMaps with
    | none => out
    | some m => { out with ConfigMaps := some (GoMap.rangeCopy (fun val => val) m) }
  let out :=
    match inp.Secrets with
    | none => out
    | some m => { out with Secrets := some (GoMap.rangeCopy (fun val => val) m) }
  out

/-- Source method `ActionStatus.DeepCopyInto`. -/
def ActionStatus.DeepCopyInto (artCopy : Artifact → Artifact) (inp _out : ActionStatus) :
    ActionStatus :=
  let out := inp
  let out := { out with Object := inp.Object }
  let out :=
    match inp.Phases with
    | none => out
    | some l => { out with Phases := some (copySlice (makeSlice default l.length) l) }
  let out :=
    match inp.Artifacts with
    | none => out
    | some m => { out with Artifacts := some (GoMap.rangeCopy artCopy m) }
  out

/-- Source method `ActionSetSpec.DeepCopyInto`. -/
def ActionSetSpec.DeepCopyInto (artCopy : Artifact → Artifact) (inp _out : ActionSetSpec) :
    ActionSetSpec :=
  let out := inp
  let out :=
    match inp.Actions with
    | none => out
    | some l =>
      { out with Actions := some (
          forRangeInto (ActionSpec.DeepCopyInto artCopy) l (makeSlice default l.length)) }
  out

/-- Source method `ActionSetStatus.DeepCopyInto`. -/
def ActionSetStatus.DeepCopyInto (artCopy : Artifact → Artifact)
    (inp _out : ActionSetStatus) : ActionSetStatus :=
  let out := inp
  let out :=
    match inp.Actions with
    | none => out
    | some l =>
      { out with Actions := some (
          forRangeInto (ActionStatus.DeepCopyInto artCopy) l
            (makeSlice default l.length)) }
  out

/-- Source method `ActionSet.DeepCopyInto`. -/
def ActionSet.DeepCopyInto (omCopy : MetaCopy)
    (artCopy : Artifact → Artifact) (inp _out : ActionSet) : ActionSet :=
  let out := inp
  let out := { out with TypeMeta := inp.TypeMeta }
  let out := { out with ObjectMeta := omCopy inp.ObjectMeta out.ObjectMeta }
  let out :=
    match inp.Spec with
    | none => out
    | some spec => { out with Spec := some (ActionSetSpec.DeepCopyInto artCopy spec default) }
  let out :=
    match inp.Status with
    | none => out
    | some status =>
      { out with Status := some (ActionSetStatus.DeepCopyInto artCopy status default) }
  out

/-- Source method `ActionSet.DeepCopy`. -/
def ActionSet.DeepCopy (omCopy : MetaCopy)
    (artCopy : Artifact → Artifact) (inp : Option ActionSet) : Option ActionSet :=
  match inp with
  | none => none
  | some a => some (ActionSet.DeepCopyInto omCopy artCopy a default)

/-- Source method `BlueprintPhase.DeepCopyInto`. -/
def BlueprintPhase.DeepCopyInto (inp _out : BlueprintPhase) : BlueprintPhase :=
  let out := inp
  let out :=
    match inp.Args with
    | none => out
    | some l => { out with Args := some (copySlice (makeSlice default l.length) l) }
  out

/-- Source method `BlueprintAction.DeepCopyInto`. -/
def BlueprintAction.DeepCopyInto (artCopy : Artifact → Artifact)
    (inp _out : BlueprintAction) : BlueprintAction :=
  let out := inp
  let out :=
    match inp.ConfigMapNames with
    | none => out
    | some l => { out with ConfigMapNames := some (copySlice (makeSlice default l.length) l) }
  let out :=
    match inp.SecretNames with
    | none => out
    | some l => { out with SecretNames := some (copySlice (makeSlice default l.length) l) }
  let out :=
    match inp.InputArtifactNames with
    | none => out
    | some l =>
      { out with InputArtifactNames := some (copySlice (makeSlice default l.length) l) }
  let out :=
    match inp.OutputArtifacts with
    | none => out
    | some m => { out with OutputArtifacts := some (GoMap.rangeCopy artCopy m) }
  let out :=
    match inp.Phases with
    | none => out
    | some l =>
      { out with Phases := some (
          forRangeInto BlueprintPhase.DeepCopyInto l (makeSlice default l.length)) }
  out

/-- The body of the loop over `in.Actions` in `Blueprint.DeepCopyInto`: a nil action stays
nil, a non-nil one is copied into a new `BlueprintAction`. -/
def copyActionPointer (artCopy : Artifact → Artifact) (val : Option BlueprintAction) :
    Option BlueprintAction :=
  match val with
  | none => none
  | some a => some (BlueprintAction.DeepCopyInto artCopy a default)

/-- Source method `Blueprint.DeepCopyInto`. -/
def Blueprint.DeepCopyInto (omCopy : MetaCopy)
    (artCopy : Artifact → Artifact) (inp _out : Blueprint) : Blueprint :=
  let out := inp
  let out := { out with TypeMeta := inp.TypeMeta }
  let out := { out with ObjectMeta := omCopy inp.ObjectMeta out.ObjectMeta }
  let out :=
    match inp.Actions with
    | none => out
    | some m => { out with Actions := some (GoMap.rangeCopy (copyActionPointer artCopy) m) }
  out

/-- Source method `Blueprint.DeepCopy`. -/
def Blueprint.DeepCopy (omCopy : MetaCopy)
    (artCopy : Artifact → Artifact) (inp : Option Blueprint) : Option Blueprint :=
  match inp with
  | none => none
  | some b => some (Blueprint.DeepCopyInto omCopy artCopy b default)

/-- The desired actions of an ActionSet, `Spec.Actions`; no action when `Spec` is nil. -/
def ActionSet.specActions (a : ActionSet) : List ActionSpec :=
  match a.Spec with
  | some spec => spec.Actions.getD []
  | none => []

/-- The observed actions of an ActionSet, `Status.Actions`; no action when `Status` is
nil. -/
def ActionSet.statusActions (a : ActionSet) : List ActionStatus :=
  match a.Status with
  | some status => status.Actions.getD []
  | none => []

/-- An ActionSet with one desired and one observed action, used for concrete runs. -/
def demoActionSet : ActionSet :=
  { TypeMeta := { Kind := "ActionSet", APIVersion := "cr.kanister.io/v1alpha1" }
    ObjectMeta := { Name := "backup-1", Namespace := "kanister", ResourceVersion := "7",
                    Labels := none }
    Spec := some
      { Actions := some
          [{ Name := "backup"
             Object := { APIVersion := "v1", Group := "apps", Resource := "deployments",
                         Name := "db", Namespace := "default" }
             Blueprint := "db-blueprint"
             Artifacts := some ⟨[("in", { KeyValue := some ⟨[("path", "s3://b/k")], by simp⟩ })],
                                by simp⟩
             ConfigMaps := none
             Secrets := some ⟨[], by simp⟩ }] }
    Status := some
      { State := "running"
        Actions := some
          [{ Name := "backup"
             Object := { APIVersion := "v1", Group := "apps", Resource := "deployments",
                         Name := "db", Namespace := "default" }
             Blueprint := "db-blueprint"
             Phases := some [{ Name := "snapshot", State := "complete" },
                             { Name := "upload", State := "pending" }]
             Artifacts := none }] } }

/-! ## pkg/function/restore_csi_snapshot_test.go

The test file is present; the functions it tests (restore_csi_snapshot.go) are not. -/

namespace function

/-- Library constant `v1.PersistentVolumeFilesystem`. -/
def PersistentVolumeFilesystem : String := "Filesystem"

/-- Library constant `v1.PersistentVolumeBlock`. -/
def PersistentVolumeBlock : String := "Block"

/-- Library constant `v1.ReadWriteOnce`. -/
def ReadWriteOnce : String := "ReadWriteOnce"

/-- Library constant `v1.ReadOnlyMany`. -/
def ReadOnlyMany : String := "ReadOnlyMany"

/-- Library constant `v1.ReadWriteMany`. -/
def ReadWriteMany : String := "ReadWriteMany"

/-- Library constant `v1.ReadWriteOncePod`. -/
def ReadWriteOncePod : String := "ReadWriteOncePod"

/-- The volume modes Kubernetes defines. -/
def recognisedVolumeModes : List String :=
  [PersistentVolumeFilesystem, PersistentVolumeBlock]

/-- The access modes Kubernetes defines. -/
def recognisedAccessModes : List String :=
  [ReadWriteOnce, ReadOnlyMany, ReadWriteMany, ReadWriteOncePod]

/-- Modelled from the spec: the declaration of `restoreCSISnapshotArgs` is missing; the fields
are the ones the test assigns (lines 110-133). `RestoreSize` is a pointer to a quantity,
kept as its text. -/
structure restoreCSISnapshotArgs where
  Name : String
  PVC : String
  Namespace : String
  StorageClass : String
  RestoreSize : Option String
  AccessModes : Option (List String)
  VolumeMode : String
  Labels : Option (GoMap String)
  deriving Inhabited

/-- Modelled from the spec: `validateVolumeModeArg` is missing; it returns an error when the
volume mode of the arguments is not a volume mode Kubernetes defines, and nil when it is
one (test lines 119-122, 129-135, 146-164). -/
def validateVolumeModeArg (args : restoreCSISnapshotArgs) : Option Error :=
  if args.VolumeMode ∈ recognisedVolumeModes then none
  else some ("Given volumeMode " ++ args.VolumeMode ++ " is invalid")

/-- Modelled from the spec: the loop of `validateVolumeAccessModesArg` over the access modes:
the first one that Kubernetes does not define gives an error. -/
def validateAccessModes : List String → Option Error
  | [] => none
  | mode :: rest =>
    if mode ∈ recognisedAccessModes then validateAccessModes rest
    else some ("Given accessMode " ++ mode ++ " is invalid")

/-- Modelled from the spec: `validateVolumeAccessModesArg` is missing; it returns an error
when some access mode of the arguments is not an access mode Kubernetes defines, and nil when
all are (test lines 124-127, 166-184). -/
def validateVolumeAccessModesArg (args : restoreCSISnapshotArgs) : Option Error :=
  validateAccessModes (args.AccessModes.getD [])

/-- Library type `v1.PersistentVolumeClaim`, reduced to the fields a claim restored from a
snapshot sets. -/
structure PersistentVolumeClaim where
  Name : String
  Namespace : String
  Labels : Option (GoMap String)
  AccessModes : Option (List String)
  VolumeMode : String
  StorageClassName : String
  DataSourceKind : String
  DataSourceName : String
  StorageRequest : Option String

/-- Modelled from the spec: `newPVCManifest` is missing; it builds the manifest of the new
claim to restore into: named `args.PVC`, with the snapshot `args.Name` as its data source
(test lines 137-139). -/
def newPVCManifest (args : restoreCSISnapshotArgs) : PersistentVolumeClaim :=
  { Name := args.PVC
    Namespace := args.Namespace
    Labels := args.Labels
    AccessModes := args.AccessModes
    VolumeMode := args.VolumeMode
    StorageClassName := args.StorageClass
    DataSourceKind := "VolumeSnapshot"
    DataSourceName := args.Name
    StorageRequest := args.RestoreSize }

/-- Source constant `RestoreCSISnapshotTestNamespace`. -/
def RestoreCSISnapshotTestNamespace : String := "test-restore-csi-snapshot"

/-- Source constant `RestoreCSISnapshotOriginalPVCName`. -/
def RestoreCSISnapshotOriginalPVCName : String := "test-pvc"

/-- Source constant `RestoreCSISnapshotNewPVCName`. -/
def RestoreCSISnapshotNewPVCName : String := "test-pvc-restored"

/-- Source constant `RestoreCSISnapshotSnapshotName`. -/
def RestoreCSISnapshotSnapshotName : String := "test-snapshot"

/-- Source constant `RestoreCSISnapshotStorageClass`. -/
def RestoreCSISnapshotStorageClass : String := "test-storage-class"

/-- The arguments `TestRestoreCSISnapshot` hands to `newPVCManifest` (lines 110-137): the
volume mode and the access modes are those of the original claim (lines 191-207). -/
def testRestoreArgs : restoreCSISnapshotArgs :=
  { Name := RestoreCSISnapshotSnapshotName
    PVC := RestoreCSISnapshotNewPVCName
    Namespace := RestoreCSISnapshotTestNamespace
    StorageClass := RestoreCSISnapshotStorageClass
    RestoreSize := some "1Gi"
    AccessModes := some [ReadWriteOnce]
    VolumeMode := PersistentVolumeFilesystem
    Labels := none }

end function

/-! ## pkg/kando/process_client_get.go -/

namespace kando

/-- Library type `cobra.Command`: the two fields the source writes, and the flags `F`. -/
structure Command (F : Type) where
  flags : F
  SilenceErrors : Bool
  SilenceUsage : Bool

/-- What `runProcessClientGetWithOutput` calls outside of its own file. `F` is the type of the
flags of the command, `P` the type of processes (`*kanx.Process`).
* `parseInt s` is `strconv.ParseInt(s, 0, 64)`;
* `processAddressFlagValue`, `processAsJSONFlagValue`, `processAsQuietFlagValue` are the
  functions of these names of package kando;
* `getProcess addr pid` is `kanx.GetProcess(cmd.Context(), addr, pid)`;
* `protojsonMarshal p` is `protojson.Marshal(p)`, the bytes read as a string;
* `format p` is the text package fmt prints for the operand `p`. -/
structure ProcessClient (F P : Type) where
  parseInt : String → Except Error Int
  processAddressFlagValue : Command F → Except Error String
  processAsJSONFlagValue : Command F → Bool
  processAsQuietFlagValue : Command F → Bool
  getProcess : String → Int → Except Error P
  protojsonMarshal : P → Except Error String
  format : P → String

/-- Library function `fmt.Fprintln` on a writer whose content so far is `out`, the operands
already formatted: they are written separated by spaces, followed by a newline. -/
def Fprintln (out : String) (operands : List String) : String :=
  out ++ " ".intercalate operands ++ "\n"

/-- Result of `runProcessClientGetWithOutput`: the returned error, the content of `out` and
the command. -/
structure RunResult (F : Type) where
  err : Option Error
  out : String
  cmd : Command F

/-- Source function `runProcessClientGetWithOutput`. `none` is the run-time panic of `args[0]`
on an empty argument list. -/
def runProcessClientGetWithOutput {F P : Type} (env : ProcessClient F P) (out : String)
    (cmd : Command F) (args : List String) : Option (RunResult F) :=
  match args with
  | [] => none
  | arg0 :: _ =>
    match env.parseInt arg0 with
    | Except.error e => some { err := some e, out := out, cmd := cmd }
    | Except.ok pid =>
      match env.processAddressFlagValue cmd with
      | Except.error e => some { err := some e, out := out, cmd := cmd }
      | Except.ok addr =>
        let asJSON := env.processAsJSONFlagValue cmd
        let asQuiet := env.processAsQuietFlagValue cmd
        let cmd := if asQuiet then { cmd with SilenceErrors := true } else cmd
        let cmd := { cmd with SilenceUsage := true }
        match env.getProcess addr pid with
        | Except.error e => some { err := some e, out := out, cmd := cmd }
        | Except.ok p =>
          if asQuiet then some { err := none, out := out, cmd := cmd }
          else if asJSON then
            match env.protojsonMarshal p with
            | Except.error e => some { err := some e, out := out, cmd := cmd }
            | Except.ok buf => some { err := none, out := Fprintln out [buf], cmd := cmd }
          else some { err := none, out := Fprintln out ["Process: ", env.format p], cmd := cmd }

/-- Source function `runProcessClientGet`; `stdout` is the content of `cmd.OutOrStdout()`. -/
def runProcessClientGet {F P : Type} (env : ProcessClient F P) (stdout : String)
    (cmd : Command F) (args : List String) : Option (RunResult F) :=
  runProcessClientGetWithOutput env stdout cmd args

/-- Flags of the demonstration client: address, JSON and quiet. -/
structure DemoFlags where
  address : String
  asJSON : Bool
  asQuiet : Bool

/-- Demonstration client: one process, of PID 42, is known at address `localhost:7000`; the
only argument that parses is `42`. -/
def demoClient : ProcessClient DemoFlags String where
  parseInt := fun a => if a = "42" then Except.ok 42 else Except.error "invalid syntax"
  processAddressFlagValue := fun cmd => Except.ok cmd.flags.address
  processAsJSONFlagValue := fun cmd => cmd.flags.asJSON
  processAsQuietFlagValue := fun cmd => cmd.flags.asQuiet
  getProcess := fun addr pid =>
    if addr = "localhost:7000" ∧ pid = 42 then Except.ok "pid:42 state:RUNNING"
    else Except.error "not found"
  protojsonMarshal := fun p => Except.ok ("json(" ++ p ++ ")")
  format := fun p => p

/-- A command of the demonstration client. -/
def demoCommand (asJSON asQuiet : Bool) : Command DemoFlags :=
  { flags := { address := "localhost:7000", asJSON := asJSON, asQuiet := asQuiet }
    SilenceErrors := false
    SilenceUsage := false }

end kando

/-! ## pkg/handler/handler.go -/

namespace handler

/-- Source type `Info`. -/
structure Info where
  Alive : Bool
  Version : String
  deriving DecidableEq, Repr

/-- A Go value handed to `json.Marshal`: a boolean, a string, or a value of a type that
package encoding/json does not support (a channel, a function, a complex number). -/
inductive JSONValue where
  | bool (b : Bool)
  | string (s : String)
  | unsupported (kind : String)

/-- The fields `json.Marshal` sees on an `Info`, with the names of the struct tags. -/
def Info.fields (info : Info) : List (String × JSONValue) :=
  [("alive", JSONValue.bool info.Alive), ("version", JSONValue.string info.Version)]

/-- Library package encoding/json on one value; `quote` is its encoding of a Go string as a
JSON string literal. -/
def encodeValue (quote : String → String) : JSONValue → Except Error String
  | JSONValue.bool true => Except.ok "true"
  | JSONValue.bool false => Except.ok "false"
  | JSONValue.string s => Except.ok (quote s)
  | JSONValue.unsupported kind => Except.error ("json: unsupported type: " ++ kind)

/-- Library package encoding/json on the fields of a struct: the members `"name":value`, in
declaration order. -/
def encodeFields (quote : String → String) :
    List (String × JSONValue) → Except Error (List String)
  | [] => Except.ok []
  | (name, v) :: rest =>
    match encodeValue quote v with
    | Except.error e => Except.error e
    | Except.ok text =>
      match encodeFields quote rest with
      | Except.error e => Except.error e
      | Except.ok members => Except.ok (("\"" ++ name ++ "\":" ++ text) :: members)

/-- Library function `json.Marshal` on an `Info`, the bytes read as a string. -/
def jsonMarshal (quote : String → String) (info : Info) : Except Error String :=
  match encodeFields quote info.fields with
  | Except.error e => Except.error e
  | Except.ok members => Except.ok ("\x7b" ++ ",".intercalate members ++ "\x7d")

/-- Library type `http.Request`, reduced to method, path, headers and body. -/
structure Request where
  Method : String
  Path : String
  Header : List (String × String)
  Body : String

/-- Library type `http.ResponseWriter` as a state: the header map, whether the status line
and the headers have been written, the status code and the headers written, the body. -/
structure ResponseWriter where
  header : List (String × String)
  wroteHeader : Bool
  status : Nat
  sentHeader : List (String × String)
  body : String

/-- The response writer the server hands to a handler. -/
def ResponseWriter.fresh : ResponseWriter :=
  { header := [], wroteHeader := false, status := 0, sentHeader := [], body := "" }

/-- Library method `ResponseWriter.WriteHeader`: the first call fixes the status code and the
headers sent; a later call changes nothing. -/
def ResponseWriter.WriteHeader (w : ResponseWriter) (code : Nat) : ResponseWriter :=
  if w.wroteHeader then w
  else { w with wroteHeader := true, status := code, sentHeader := w.header }

/-- Library method `Header.Set` on `w.Header()`. -/
def ResponseWriter.SetHeader (w : ResponseWriter) (key value : String) : ResponseWriter :=
  { w with header := setEntry key value w.header }

/-- Library function `io.WriteString` on the response writer: the status 200 is written first
when no status has been written yet. -/
def ResponseWriter.WriteString (w : ResponseWriter) (text : String) : ResponseWriter :=
  let w := if w.wroteHeader then w else w.WriteHeader 200
  { w with body := w.body ++ text }

/-- Library constant `http.StatusOK`. -/
def StatusOK : Nat := 200

/-- Library constant `http.StatusInternalServerError`. -/
def StatusInternalServerError : Nat := 500

/-- Library function `http.Error`. -/
def httpError (w : ResponseWriter) (message : String) (code : Nat) : ResponseWriter :=
  let w := w.SetHeader "Content-Type" "text/plain; charset=utf-8"
  let w := w.SetHeader "X-Content-Type-Options" "nosniff"
  let w := w.WriteHeader code
  w.WriteString (message ++ "\n")

/-- Source method `healthCheckHandler.ServeHTTP`. `VERSION` is the constant `version.VERSION`
of a package that is not among the source files. -/
def ServeHTTP (VERSION : String) (quote : String → String) (w : ResponseWriter)
    (_r : Request) : ResponseWriter :=
  let version := VERSION
  let info : Info := { Alive := true, Version := version }
  match jsonMarshal quote info with
  | Except.error e => httpError w e StatusInternalServerError
  | Except.ok js =>
    let w := w.WriteHeader StatusOK
    let w := w.SetHeader "Content-Type" "application/json"
    w.WriteString js

end handler

/-! ## The aggregate state of an ActionSet -/

/-- Modelled from the spec: the states of an action, "Pending, Running, Succeeded, Failed". -/
inductive RunState where
  | Pending
  | Running
  | Succeeded
  | Failed
  deriving DecidableEq, Repr

/-- Modelled from the spec: the states of an ActionSet, "Pending, Running, Complete or
Failed". -/
inductive SetState where
  | Pending
  | Running
  | Complete
  | Failed
  deriving DecidableEq, Repr

/-- Modelled from the spec: the code that derives the aggregate state of an ActionSet is
missing; "An ActionSet's aggregate state is Failed if any action is Failed, Complete only if
all actions are Succeeded, else Running". -/
def aggregateState (actions : List RunState) : SetState :=
  if RunState.Failed ∈ actions then SetState.Failed
  else if actions.all (fun a => a = RunState.Succeeded) then SetState.Complete
  else SetState.Running

/-- Modelled from the spec: the aggregate state of an ActionSet, "derived from the per-action
states"; `actionState` gives the state of an action from its status. -/
def ActionSet.aggregateState (actionState : ActionStatus → RunState) (a : ActionSet) :
    SetState :=
  Kanister.aggregateState (a.statusActions.map actionState)

/-! # Theorems -/

/-! ## Go slices and maps -/

/-- Copying a slice into a fresh slice of the same length gives the slice. -/
theorem copySlice_makeSlice {α : Type} (zero : α) (l : List α) :
    copySlice (makeSlice zero l.length) l = l := by
  simp [copySlice, makeSlice]

/-- After the first `n` rounds of the index loop, the entries below `n` are rewritten and the
others are untouched. -/
theorem forRangeInto_rounds {α β : Type} (f : α → β → β) (src : List α) (dst : List β)
    (hlen : dst.length = src.length) :
    ∀ n, n ≤ src.length →
      ((List.range n).foldl
        (fun out i =>
          match src[i]?, out[i]? with
          | some x, some y => out.set i (f x y)
          | _, _ => out) dst) =
        (List.zipWith f (src.take n) (dst.take n)) ++ dst.drop n := by
  intro n
  induction n with
  | zero => intro _; simp
  | succ n ih =>
    intro hn
    have hn1 : n < src.length := hn
    have hn2 : n < dst.length := by omega
    rw [List.range_succ, List.foldl_append, ih (by omega)]
    simp only [List.foldl_cons, List.foldl_nil]
    have hlz : (List.zipWith f (src.take n) (dst.take n)).length = n := by
      simp [List.length_zipWith, List.length_take]; omega
    have hs : src[n]? = some src[n] := List.getElem?_eq_getElem hn1
    have hd : (List.zipWith f (List.take n src) (List.take n dst) ++ List.drop n dst)[n]? =
        some dst[n] := by
      rw [List.getElem?_append_right (by omega)]
      simp [hlz, List.getElem?_drop, List.getElem?_eq_getElem hn2]
    rw [hs, hd]
    simp only
    rw [List.take_succ, List.take_succ, hs, List.getElem?_eq_getElem hn2]
    simp only [Option.toList]
    rw [List.zipWith_append _ _ _ _ _ (by simp [List.length_take]; omega)]
    rw [List.set_append_right _ _ (by omega), hlz]
    simp only [Nat.sub_self, List.zipWith_cons_cons, List.zipWith_nil_right, List.append_assoc,
      List.singleton_append]
    congr 1
    conv_lhs => rw [List.drop_eq_getElem_cons hn2]
    rfl

/-- The index loop over a fresh slice of zero values maps the copy function over the
source. -/
theorem forRangeInto_makeSlice {α β : Type} (f : α → β → β) (zero : β) (src : List α) :
    forRangeInto f src (makeSlice zero src.length) = src.map (fun x => f x zero) := by
  unfold forRangeInto
  rw [forRangeInto_rounds f src (makeSlice zero src.length) (by simp [makeSlice])
    src.length (le_refl _)]
  simp only [makeSlice, List.take_length]
  rw [List.take_of_length_le (by simp), List.drop_of_length_le (by simp), List.append_nil]
  induction src with
  | nil => simp
  | cons x rest ih => simp [List.replicate_succ, ih]

/-- Assigning a key that is not in the list adds the entry at the end. -/
theorem setEntry_of_not_mem {V : Type} (k : String) (v : V) :
    ∀ l : List (String × V), k ∉ l.map Prod.fst → setEntry k v l = l ++ [(k, v)] := by
  intro l
  induction l with
  | nil => intro _; rfl
  | cons e rest ih =>
    intro h
    obtain ⟨k1, v1⟩ := e
    have h1 : ¬ k1 = k := fun h2 => h (by simp [h2])
    have h3 : k ∉ rest.map Prod.fst := fun h2 => h (by simp at h2 ⊢; exact Or.inr h2)
    simp [setEntry, h1, ih h3]

/-- Folding the assignments of a list of entries with distinct keys, none of them in the
accumulator, appends the entries with their values mapped. -/
theorem foldl_set_entries {V W : Type} (f : V → W) :
    ∀ (l : List (String × V)) (acc : GoMap W),
      (l.map Prod.fst).Nodup → (∀ k ∈ l.map Prod.fst, k ∉ acc.1.map Prod.fst) →
      (l.foldl (fun out e => out.set e.1 (f e.2)) acc).1 =
        acc.1 ++ l.map (fun e => (e.1, f e.2)) := by
  intro l
  induction l with
  | nil => intro acc _ _; simp
  | cons e rest ih =>
    intro acc hnd hdis
    obtain ⟨k, v⟩ := e
    have hk : k ∉ acc.1.map Prod.fst := hdis k (by simp)
    have hnd2 : k ∉ rest.map Prod.fst ∧ (rest.map Prod.fst).Nodup := by
      simpa using hnd
    have hset : (acc.set k (f v)).1 = acc.1 ++ [(k, f v)] := setEntry_of_not_mem k (f v) acc.1 hk
    rw [List.foldl_cons, ih (acc.set k (f v)) hnd2.2]
    · rw [hset]; simp
    · intro k2 hk2
      rw [hset]
      intro hmem
      simp only [List.map_append, List.map_cons, List.map_nil, List.mem_append,
        List.mem_singleton] at hmem
      rcases hmem with h | h
      · exact hdis k2 (by simp only [List.map_cons, List.mem_cons]; exact Or.inr hk2) h
      · exact hnd2.1 (h ▸ hk2)

/-- The entries of a copied map: the entries of the source, in order, the values mapped by
the copy function. -/
theorem GoMap_rangeCopy_entries {V W : Type} (f : V → W) (m : GoMap V) :
    (GoMap.rangeCopy f m).1 = m.1.map (fun e => (e.1, f e.2)) := by
  unfold GoMap.rangeCopy
  rw [foldl_set_entries f m.1 GoMap.make m.2 (by simp [GoMap.make])]
  simp [GoMap.make]

/-- A map copied with a function that returns equal values is equal to the source. -/
theorem GoMap_rangeCopy_eq {V : Type} (f : V → V) (hf : ∀ v, f v = v) (m : GoMap V) :
    GoMap.rangeCopy f m = m := by
  apply Subtype.ext
  rw [GoMap_rangeCopy_entries]
  simp [hf]

/-- The keys of a copied map are the keys of the source. -/
theorem GoMap_rangeCopy_keys {V W : Type} (f : V → W) (m : GoMap V) :
    (GoMap.rangeCopy f m).keys = m.keys := by
  simp [GoMap.keys, GoMap_rangeCopy_entries, Function.comp_def]

/-- Looking a key up in a copied map gives the copy of the value found in the source. -/
theorem GoMap_rangeCopy_get {V W : Type} (f : V → W) (m : GoMap V) (k : String) :
    (GoMap.rangeCopy f m).get? k = (m.get? k).map f := by
  unfold GoMap.get?
  rw [GoMap_rangeCopy_entries]
  generalize m.1 = l
  induction l with
  | nil => simp
  | cons e rest ih =>
    obtain ⟨k1, v1⟩ := e
    simp only [List.map_cons, List.lookup_cons]
    cases hk : (k == k1) <;> simp [ih]

/-! ## zz_generated.deepcopy.go -/

/-- A copied `ActionSpec` is equal to the source when artifacts are copied to equal values. -/
theorem ActionSpec_DeepCopyInto_eq (artCopy : Artifact → Artifact)
    (hart : ∀ a, artCopy a = a) (inp out : ActionSpec) :
    ActionSpec.DeepCopyInto artCopy inp out = inp := by
  obtain ⟨n, o, b, arts, cms, secs⟩ := inp
  cases arts <;> cases cms <;> cases secs <;>
    simp [ActionSpec.DeepCopyInto, GoMap_rangeCopy_eq, hart]

/-- A copied `ActionStatus` is equal to the source when artifacts are copied to equal
values. -/
theorem ActionStatus_DeepCopyInto_eq (artCopy : Artifact → Artifact)
    (hart : ∀ a, artCopy a = a) (inp out : ActionStatus) :
    ActionStatus.DeepCopyInto artCopy inp out = inp := by
  obtain ⟨n, o, b, phases, arts⟩ := inp
  cases phases <;> cases arts <;>
    simp [ActionStatus.DeepCopyInto, GoMap_rangeCopy_eq, hart, copySlice_makeSlice]

/-- A copied `ActionSetSpec` is equal to the source. -/
theorem ActionSetSpec_DeepCopyInto_eq (artCopy : Artifact → Artifact)
    (hart : ∀ a, artCopy a = a) (inp out : ActionSetSpec) :
    ActionSetSpec.DeepCopyInto artCopy inp out = inp := by
  obtain ⟨actions⟩ := inp
  cases actions <;>
    simp [ActionSetSpec.DeepCopyInto, forRangeInto_makeSlice, ActionSpec_DeepCopyInto_eq, hart]

/-- A copied `ActionSetStatus` is equal to the source. -/
theorem ActionSetStatus_DeepCopyInto_eq (artCopy : Artifact → Artifact)
    (hart : ∀ a, artCopy a = a) (inp out : ActionSetStatus) :
    ActionSetStatus.DeepCopyInto artCopy inp out = inp := by
  obtain ⟨st, actions⟩ := inp
  cases actions <;>
    simp [ActionSetStatus.DeepCopyInto, forRangeInto_makeSlice, ActionStatus_DeepCopyInto_eq,
      hart]

/-- A copied `ActionSet` is equal to the source. -/
theorem ActionSet_DeepCopyInto_eq (omCopy : MetaCopy) (artCopy : Artifact → Artifact)
    (hom : ∀ a b, omCopy a b = a) (hart : ∀ a, artCopy a = a) (inp out : ActionSet) :
    ActionSet.DeepCopyInto omCopy artCopy inp out = inp := by
  obtain ⟨tm, om, spec, status⟩ := inp
  cases spec <;> cases status <;>
    simp [ActionSet.DeepCopyInto, ActionSetSpec_DeepCopyInto_eq,
      ActionSetStatus_DeepCopyInto_eq, hom, hart]

/-- C3: for every ActionSet `inp` and whatever `out` held before, when
`ObjectMeta.DeepCopyInto` and `Artifact.DeepCopy` return equal values, `inp.DeepCopyInto(out)`
leaves in `out` a value equal to `inp`, and `inp.DeepCopy()` returns such a value: a nil
`Spec` or `Status` stays nil and a non-nil one stays non-nil, `Spec.Actions` and
`Status.Actions` keep their lengths, their i-th elements are the i-th elements of the
original, and a copy of an ActionSet with as many desired as observed actions has as many
desired as observed actions. -/
theorem ActionSet_DeepCopy_equal (omCopy : MetaCopy) (artCopy : Artifact → Artifact)
    (hom : ∀ a b, omCopy a b = a) (hart : ∀ a, artCopy a = a) (inp out : ActionSet) :
    ActionSet.DeepCopyInto omCopy artCopy inp out = inp ∧
    ActionSet.DeepCopy omCopy artCopy (some inp) = some inp ∧
    ((ActionSet.DeepCopyInto omCopy artCopy inp out).Spec = none ↔ inp.Spec = none) ∧
    ((ActionSet.DeepCopyInto omCopy artCopy inp out).Status = none ↔ inp.Status = none) ∧
    (ActionSet.DeepCopyInto omCopy artCopy inp out).specActions.length =
      inp.specActions.length ∧
    (ActionSet.DeepCopyInto omCopy artCopy inp out).statusActions.length =
      inp.statusActions.length ∧
    (∀ i : Nat, (ActionSet.DeepCopyInto omCopy artCopy inp out).specActions[i]? =
      inp.specActions[i]?) ∧
    (∀ i : Nat, (ActionSet.DeepCopyInto omCopy artCopy inp out).statusActions[i]? =
      inp.statusActions[i]?) ∧
    (inp.specActions.length = inp.statusActions.length →
      (ActionSet.DeepCopyInto omCopy artCopy inp out).specActions.length =
        (ActionSet.DeepCopyInto omCopy artCopy inp out).statusActions.length) := by
  have h := ActionSet_DeepCopyInto_eq omCopy artCopy hom hart inp out
  have h2 : ActionSet.DeepCopy omCopy artCopy (some inp) = some inp := by
    simp [ActionSet.DeepCopy, ActionSet_DeepCopyInto_eq omCopy artCopy hom hart]
  rw [h]
  exact ⟨rfl, h2, Iff.rfl, Iff.rfl, rfl, rfl, fun _ => rfl, fun _ => rfl, fun hlen => hlen⟩

/-- C3 at an ActionSet with one desired and one observed action, the two external copy
functions returning their argument. -/
theorem ActionSet_DeepCopy_equal_witness :
    (∀ a b : ObjectMeta, (fun x _ => x : MetaCopy) a b = a) ∧
    (∀ a : Artifact, (fun x => x : Artifact → Artifact) a = a) ∧
    ActionSet.DeepCopyInto (fun x _ => x) (fun x => x) demoActionSet default = demoActionSet ∧
    ActionSet.DeepCopy (fun x _ => x) (fun x => x) (some demoActionSet) = some demoActionSet ∧
    demoActionSet.specActions.length = 1 ∧ demoActionSet.statusActions.length = 1 :=
  ⟨fun _ _ => rfl, fun _ => rfl,
    (ActionSet_DeepCopy_equal (fun x _ => x) (fun x => x) (fun _ _ => rfl) (fun _ => rfl)
      demoActionSet default).1,
    (ActionSet_DeepCopy_equal (fun x _ => x) (fun x => x) (fun _ _ => rfl) (fun _ => rfl)
      demoActionSet default).2.1, rfl, rfl⟩

/-- A copied `BlueprintPhase` is equal to the source. -/
theorem BlueprintPhase_DeepCopyInto_eq (inp out : BlueprintPhase) :
    BlueprintPhase.DeepCopyInto inp out = inp := by
  obtain ⟨f, n, args⟩ := inp
  cases args <;> simp [BlueprintPhase.DeepCopyInto, copySlice_makeSlice]

/-- A copied `BlueprintAction` has the phases of the source, whatever `Artifact.DeepCopy`
returns. -/
theorem BlueprintAction_DeepCopyInto_Phases (artCopy : Artifact → Artifact)
    (inp out : BlueprintAction) :
    (BlueprintAction.DeepCopyInto artCopy inp out).Phases = inp.Phases := by
  obtain ⟨n, kd, cms, secs, ias, oas, phases⟩ := inp
  cases cms <;> cases secs <;> cases ias <;> cases oas <;> cases phases <;>
    simp [BlueprintAction.DeepCopyInto, forRangeInto_makeSlice, BlueprintPhase_DeepCopyInto_eq]

/-- The `Actions` of a copied Blueprint: nil for nil, the copied map otherwise. -/
theorem Blueprint_DeepCopyInto_Actions (omCopy : MetaCopy) (artCopy : Artifact → Artifact)
    (inp out : Blueprint) :
    (Blueprint.DeepCopyInto omCopy artCopy inp out).Actions =
      inp.Actions.map (GoMap.rangeCopy (copyActionPointer artCopy)) := by
  obtain ⟨tm, om, actions⟩ := inp
  cases actions <;> simp [Blueprint.DeepCopyInto]

/-- C4: for every Blueprint `b`, whatever `ObjectMeta.DeepCopyInto` and `Artifact.DeepCopy`
return, `b.DeepCopy()` has exactly the action-kind keys of `b.Actions` (a nil map stays
nil); a key mapped to a nil action stays mapped to nil; and for a key mapped to a non-nil
action the copy maps it to a non-nil action with the same `Phases`: the same length, and the
i-th phase has the same `Func`, the same `Name` and the same `Args` in the same order. -/
theorem Blueprint_DeepCopy_preserves_phases (omCopy : MetaCopy)
    (artCopy : Artifact → Artifact) (b : Blueprint) :
    ∃ cp, Blueprint.DeepCopy omCopy artCopy (some b) = some cp ∧
      cp.Actions.map GoMap.keys = b.Actions.map GoMap.keys ∧
      ∀ (m : GoMap (Option BlueprintAction)) (k : String), b.Actions = some m →
        ∃ m2, cp.Actions = some m2 ∧
          (m.get? k = none → m2.get? k = none) ∧
          (m.get? k = some none → m2.get? k = some none) ∧
          ∀ a, m.get? k = some (some a) →
            ∃ a2, m2.get? k = some (some a2) ∧ a2.Phases = a.Phases ∧
              (a2.Phases.getD []).length = (a.Phases.getD []).length ∧
              ∀ (i : Nat) (ph : BlueprintPhase), (a.Phases.getD [])[i]? = some ph →
                ∃ ph2, (a2.Phases.getD [])[i]? = some ph2 ∧
                  ph2.Func = ph.Func ∧ ph2.Name = ph.Name ∧ ph2.Args = ph.Args := by
  refine ⟨Blueprint.DeepCopyInto omCopy artCopy b default, rfl, ?_, ?_⟩
  · rw [Blueprint_DeepCopyInto_Actions]
    cases b.Actions <;> simp [GoMap_rangeCopy_keys]
  · intro m k hm
    refine ⟨GoMap.rangeCopy (copyActionPointer artCopy) m, ?_, ?_, ?_, ?_⟩
    · rw [Blueprint_DeepCopyInto_Actions, hm]; rfl
    · intro h; rw [GoMap_rangeCopy_get, h]; rfl
    · intro h; rw [GoMap_rangeCopy_get, h]; rfl
    · intro a h
      refine ⟨BlueprintAction.DeepCopyInto artCopy a default, ?_, ?_, ?_, ?_⟩
      · rw [GoMap_rangeCopy_get, h]; rfl
      · exact BlueprintAction_DeepCopyInto_Phases artCopy a default
      · rw [BlueprintAction_DeepCopyInto_Phases]
      · intro i ph hph
        rw [BlueprintAction_DeepCopyInto_Phases]
        exact ⟨ph, hph, rfl, rfl, rfl⟩

namespace kube

/-! ## kubectl.go -/

/-- When every item is handed over without error and every creation succeeds, the visit
returns no error and leaves in `objRef` the last reference built (or the initial value when
there is no item). -/
theorem visitItems_created {σ O : Type} (c : Cluster σ O) (k : KubectlOperation) :
    ∀ (items : List (Info O × Option Error)) (s : σ) (r0 : Option ObjectReference),
      (∀ it ∈ items, it.2 = none) →
      (∀ x ∈ creations c k s items, Created c x) →
      (visitItems (createVisitor c k) (s, r0) items).2 = none ∧
      (visitItems (createVisitor c k) (s, r0) items).1.2 =
        (r0.toList ++ references c (creations c k s items)).getLast? ∧
      (references c (creations c k s items)).length = items.length := by
  intro items
  induction items with
  | nil => intro s r0 _ _; cases r0 <;> simp [visitItems, creations, references]
  | cons it rest ih =>
    intro s r0 hflat hall
    obtain ⟨info, e⟩ := it
    have he : e = none := hflat (info, e) (List.mem_cons_self _ _)
    subst he
    rcases hc : c.helperCreate s info.Mapping (targetNamespace k info) info.Object with
      ⟨s1, obj, cerr⟩
    have hcr : creations c k s ((info, none) :: rest) = (info, obj, cerr) :: creations c k s1 rest := by
      simp [creations, hc]
    rw [hcr] at hall
    obtain ⟨_, u, hu⟩ := hall (info, obj, cerr) (List.mem_cons_self _ _)
    have hu1 : c.toUnstructured obj = Except.ok u := hu
    have hstep : createVisitor c k (s, r0) info none = ((s1, some (referenceOf info u)), none) := by
      simp [createVisitor, hc, hu1, referenceOf]
    have hrest := ih s1 (some (referenceOf info u))
      (fun it hit => hflat it (List.mem_cons_of_mem _ hit))
      (fun x hx => hall x (List.mem_cons_of_mem _ hx))
    have hv : visitItems (createVisitor c k) (s, r0) ((info, none) :: rest) =
        visitItems (createVisitor c k) (s1, some (referenceOf info u)) rest := by
      simp [visitItems, hstep]
    rw [hv, hcr]
    refine ⟨hrest.1, ?_, ?_⟩
    · rw [hrest.2.1]
      simp only [references, hu1, Option.toList]
      cases r0 <;> simp [List.getLast?_append, List.getLast?_cons_cons]
    · simp [references, hu1, hrest.2.2]

/-- Both objects of the manifest `a,db` are created and converted successfully on the
demonstration cluster. -/
theorem demo_creations_created :
    ∀ x ∈ creations demoCluster (NewKubectlOperations "a,db" "default") 0
        (demoCluster.builderDo 0 "a,db" "default").items, Created demoCluster x := by
  intro x hx
  have hx2 : x = ({ Namespace := "", Mapping := configMapMapping,
                    Object := { name := "a", ns := "" } },
                  some { name := "a", ns := "default" }, none) ∨
             x = ({ Namespace := "", Mapping := deploymentMapping,
                    Object := { name := "db", ns := "" } },
                  some { name := "db", ns := "default" }, none) := by
    simpa [creations, demoCluster, NewKubectlOperations, splitComma, targetNamespace,
      configMapMapping, deploymentMapping] using hx
  rcases hx2 with h | h <;> subst h <;> exact ⟨rfl, _, rfl⟩

/-- C1, as stated, fails: the manifest `a,db` flattens to two objects, both are created and
converted successfully, two references are built, and `Execute(CreateOperation)` returns
only one of them: the reference of the first object is not returned. -/
theorem Execute_create_drops_reference :
    (demoCluster.builderDo 0 "a,db" "default").err = none ∧
    (demoCluster.builderDo 0 "a,db" "default").items.length = 2 ∧
    (∀ it ∈ (demoCluster.builderDo 0 "a,db" "default").items, it.2 = none) ∧
    (∀ x ∈ creations demoCluster (NewKubectlOperations "a,db" "default") 0
        (demoCluster.builderDo 0 "a,db" "default").items, Created demoCluster x) ∧
    ((NewKubectlOperations "a,db" "default").Execute demoCluster CreateOperation 0).err = none ∧
    ((NewKubectlOperations "a,db" "default").Execute demoCluster CreateOperation 0).objRef =
      some { APIVersion := "v1", Group := "apps", Resource := "deployments", Name := "db",
             Namespace := "default" } ∧
    ¬ (∀ r ∈ references demoCluster
          (creations demoCluster (NewKubectlOperations "a,db" "default") 0
            (demoCluster.builderDo 0 "a,db" "default").items),
        r ∈ ((NewKubectlOperations "a,db" "default").Execute demoCluster
              CreateOperation 0).objRef.toList) := by
  refine ⟨rfl, rfl, by decide, demo_creations_created, rfl, rfl, ?_⟩
  intro h
  have h1 := h { APIVersion := "v1", Group := "", Resource := "configmaps", Name := "a",
                 Namespace := "default" } (by decide)
  exact absurd h1 (by decide)

/-- C1, amended: when the manifest flattens to n ≥ 1 objects without error and each of them
is created and converted to unstructured form successfully, `Execute(CreateOperation)`
returns no error and exactly one reference, the last of the n references built (the one of
the last object of the manifest). -/
theorem Execute_create_returns_last_reference {σ O : Type} (c : Cluster σ O)
    (k : KubectlOperation) (s : σ)
    (hbuild : (c.builderDo s k.specs k.ns).err = none)
    (hflat : ∀ it ∈ (c.builderDo s k.specs k.ns).items, it.2 = none)
    (hn : 1 ≤ (c.builderDo s k.specs k.ns).items.length)
    (hall : ∀ x ∈ creations c k s (c.builderDo s k.specs k.ns).items, Created c x) :
    (k.Execute c CreateOperation s).err = none ∧
    (references c (creations c k s (c.builderDo s k.specs k.ns).items)).length =
      (c.builderDo s k.specs k.ns).items.length ∧
    (k.Execute c CreateOperation s).objRef =
      (references c (creations c k s (c.builderDo s k.specs k.ns).items)).getLast? ∧
    (k.Execute c CreateOperation s).objRef.toList.length = 1 := by
  obtain ⟨h1, h2, h3⟩ :=
    visitItems_created c k (c.builderDo s k.specs k.ns).items s none hflat hall
  have hE : k.Execute c CreateOperation s =
      { cluster := (visitItems (createVisitor c k) (s, none)
                      (c.builderDo s k.specs k.ns).items).1.1
        objRef := (visitItems (createVisitor c k) (s, none)
                      (c.builderDo s k.specs k.ns).items).1.2
        err := (visitItems (createVisitor c k) (s, none)
                      (c.builderDo s k.specs k.ns).items).2 } := by
    simp [KubectlOperation.Execute, KubectlOperation.create, Result.Visit, hbuild]
  rw [hE]
  simp only [Option.toList, List.nil_append] at h2
  refine ⟨h1, h3, h2, ?_⟩
  simp only [h2]
  have hne : references c (creations c k s (c.builderDo s k.specs k.ns).items) ≠ [] := by
    intro h0
    rw [h0] at h3
    simp at h3
    omega
  obtain ⟨r, hr⟩ := Option.isSome_iff_exists.mp (List.getLast?_isSome.mpr hne)
  simp [hr]

/-- C1, amended, at the manifest `a,db`: the reference returned is the one of `db`. -/
theorem Execute_create_returns_last_reference_witness :
    (demoCluster.builderDo 0 "a,db" "default").err = none ∧
    1 ≤ (demoCluster.builderDo 0 "a,db" "default").items.length ∧
    (references demoCluster (creations demoCluster (NewKubectlOperations "a,db" "default") 0
        (demoCluster.builderDo 0 "a,db" "default").items)).getLast? =
      some { APIVersion := "v1", Group := "apps", Resource := "deployments", Name := "db",
             Namespace := "default" } ∧
    ((NewKubectlOperations "a,db" "default").Execute demoCluster CreateOperation 0).objRef =
      (references demoCluster (creations demoCluster (NewKubectlOperations "a,db" "default") 0
        (demoCluster.builderDo 0 "a,db" "default").items)).getLast? :=
  ⟨rfl, by decide, rfl,
    (Execute_create_returns_last_reference demoCluster (NewKubectlOperations "a,db" "default") 0
      rfl (by decide) (by decide) demo_creations_created).2.2.1⟩

/-- C2: for a manifest holding exactly one object whose creation and conversion to
unstructured form succeed, the reference returned by `Execute(CreateOperation)` has the
group, version and resource of the REST mapping of the object, and the name and namespace
(`metadata.name`, `metadata.namespace`) of the object returned by the cluster. -/
theorem Execute_create_single_reference {σ O : Type} (c : Cluster σ O) (k : KubectlOperation)
    (s s1 : σ) (info : Info O) (obj : Option O) (u : List (String × UValue))
    (hbuild : c.builderDo s k.specs k.ns = { err := none, items := [(info, none)] })
    (hcreate : c.helperCreate s info.Mapping (targetNamespace k info) info.Object =
      (s1, obj, none))
    (hconv : c.toUnstructured obj = Except.ok u) :
    (k.Execute c CreateOperation s).err = none ∧
    ∃ r, (k.Execute c CreateOperation s).objRef = some r ∧
      r.Group = info.Mapping.Resource.Group ∧
      r.APIVersion = info.Mapping.Resource.Version ∧
      r.Resource = info.Mapping.Resource.Resource ∧
      r.Name = Unstructured.GetName { Object := u } ∧
      r.Namespace = Unstructured.GetNamespace { Object := u } := by
  simp [KubectlOperation.Execute, KubectlOperation.create, Result.Visit, hbuild, visitItems,
    createVisitor, hcreate, hconv]

/-- C2 at the manifest `db` in namespace `default`. -/
theorem Execute_create_single_reference_witness :
    demoCluster.builderDo 0 "db" "default" =
      { err := none
        items := [({ Namespace := "", Mapping := deploymentMapping,
                     Object := { name := "db", ns := "" } }, none)] } ∧
    ((NewKubectlOperations "db" "default").Execute demoCluster CreateOperation 0).err = none ∧
    ∃ r, ((NewKubectlOperations "db" "default").Execute demoCluster CreateOperation 0).objRef =
        some r ∧
      r.Group = "apps" ∧ r.APIVersion = "v1" ∧ r.Resource = "deployments" ∧
      r.Name = "db" ∧ r.Namespace = "default" :=
  ⟨rfl, Execute_create_single_reference demoCluster (NewKubectlOperations "db" "default") 0 1
    { Namespace := "", Mapping := deploymentMapping, Object := { name := "db", ns := "" } }
    (some { name := "db", ns := "default" })
    (DemoObject.content { name := "db", ns := "default" }) rfl rfl rfl⟩

/-- The calls of `Create` recorded during a visit: they are made for the first `n` items, in
order, each in the namespace of the info when that is not empty and in the namespace of the
operation otherwise; when the visit returns no error, `n` is the number of items. -/
theorem visitItems_recording {σ O : Type} (c : Cluster σ O) (k : KubectlOperation) :
    ∀ (items : List (Info O × Option Error)) (s : σ) (log : List (String × O))
      (r0 : Option ObjectReference),
      ∃ n, n ≤ items.length ∧
        (visitItems (createVisitor (recording c) k) ((s, log), r0) items).1.1.2 =
          log ++ (items.take n).map
            (fun it => (if it.1.Namespace = "" then k.ns else it.1.Namespace, it.1.Object)) ∧
        ((visitItems (createVisitor (recording c) k) ((s, log), r0) items).2 = none →
          n = items.length) := by
  intro items
  induction items with
  | nil => intro s log r0; exact ⟨0, le_refl _, by simp [visitItems], fun _ => rfl⟩
  | cons it rest ih =>
    intro s log r0
    obtain ⟨info, e⟩ := it
    cases e with
    | some e1 =>
      exact ⟨0, Nat.zero_le _, by simp [visitItems, createVisitor],
        by simp [visitItems, createVisitor]⟩
    | none =>
      rcases hc : c.helperCreate s info.Mapping (targetNamespace k info) info.Object with
        ⟨s1, obj, cerr⟩
      have hns : targetNamespace k info =
          if info.Namespace = "" then k.ns else info.Namespace := by
        unfold targetNamespace
        by_cases h : info.Namespace = "" <;> simp [h]
      cases hu : c.toUnstructured obj with
      | error e2 =>
        refine ⟨1, by simp, ?_, ?_⟩
        · simp [visitItems, createVisitor, recording, hc, hu, ← hns]
        · simp [visitItems, createVisitor, recording, hc, hu]
      | ok u =>
        obtain ⟨n, hn, hlog, hfull⟩ :=
          ih s1 (log ++ [(targetNamespace k info, info.Object)]) (some (referenceOf info u))
        have hv : visitItems (createVisitor (recording c) k) ((s, log), r0)
              ((info, none) :: rest) =
            visitItems (createVisitor (recording c) k)
              ((s1, log ++ [(targetNamespace k info, info.Object)]),
                some (referenceOf info u)) rest := by
          simp [visitItems, createVisitor, recording, hc, hu, referenceOf]
        refine ⟨n + 1, by simpa using hn, ?_, ?_⟩
        · rw [hv, hlog]
          simp [hns]
        · intro h
          rw [hv] at h
          simp [hfull h]

/-- Recording the calls of `Create` does not change what `Execute` returns. -/
theorem visitItems_recording_result {σ O : Type} (c : Cluster σ O) (k : KubectlOperation) :
    ∀ (items : List (Info O × Option Error)) (s : σ) (log : List (String × O))
      (r0 : Option ObjectReference),
      (visitItems (createVisitor (recording c) k) ((s, log), r0) items).1.1.1 =
        (visitItems (createVisitor c k) (s, r0) items).1.1 ∧
      (visitItems (createVisitor (recording c) k) ((s, log), r0) items).1.2 =
        (visitItems (createVisitor c k) (s, r0) items).1.2 ∧
      (visitItems (createVisitor (recording c) k) ((s, log), r0) items).2 =
        (visitItems (createVisitor c k) (s, r0) items).2 := by
  intro items
  induction items with
  | nil => intro s log r0; simp [visitItems]
  | cons it rest ih =>
    intro s log r0
    obtain ⟨info, e⟩ := it
    cases e with
    | some e1 => simp [visitItems, createVisitor]
    | none =>
      rcases hc : c.helperCreate s info.Mapping (targetNamespace k info) info.Object with
        ⟨s1, obj, cerr⟩
      cases hu : c.toUnstructured obj with
      | error e2 => simp [visitItems, createVisitor, recording, hc, hu]
      | ok u =>
        have h1 : visitItems (createVisitor (recording c) k) ((s, log), r0)
              ((info, none) :: rest) =
            visitItems (createVisitor (recording c) k)
              ((s1, log ++ [(targetNamespace k info, info.Object)]),
                some (referenceOf info u)) rest := by
          simp [visitItems, createVisitor, recording, hc, hu, referenceOf]
        have h2 : visitItems (createVisitor c k) (s, r0) ((info, none) :: rest) =
            visitItems (createVisitor c k) (s1, some (referenceOf info u)) rest := by
          simp [visitItems, createVisitor, hc, hu, referenceOf]
        rw [h1, h2]
        exact ih s1 _ _

/-- The calls of `Create` made by `Execute(CreateOperation)` are made for the first `n`
objects of the manifest, in order, each in the namespace of the info when that is not empty
and in the namespace given to `NewKubectlOperations` otherwise; `n` is the number of objects
when `Execute` returns no error. -/
theorem Execute_recording_calls {σ O : Type} (c : Cluster σ O) (specs ns : String) (s : σ) :
    ∃ n, n ≤ (c.builderDo s specs ns).items.length ∧
      ((NewKubectlOperations specs ns).Execute (recording c) CreateOperation (s, [])).cluster.2 =
        ((c.builderDo s specs ns).items.take n).map
          (fun it => (if it.1.Namespace = "" then ns else it.1.Namespace, it.1.Object)) ∧
      (((NewKubectlOperations specs ns).Execute (recording c) CreateOperation (s, [])).err =
          none →
        n = (c.builderDo s specs ns).items.length) := by
  cases hb : (c.builderDo s specs ns).err with
  | some e =>
    refine ⟨0, Nat.zero_le _, ?_, ?_⟩ <;>
      simp [KubectlOperation.Execute, KubectlOperation.create, NewKubectlOperations, recording,
        hb]
  | none =>
    obtain ⟨n, hn, hlog, hfull⟩ :=
      visitItems_recording c (NewKubectlOperations specs ns) (c.builderDo s specs ns).items s []
        none
    have hE : (NewKubectlOperations specs ns).Execute (recording c) CreateOperation (s, []) =
        { cluster := (visitItems (createVisitor (recording c) (NewKubectlOperations specs ns))
                        ((s, []), none) (c.builderDo s specs ns).items).1.1
          objRef := (visitItems (createVisitor (recording c) (NewKubectlOperations specs ns))
                        ((s, []), none) (c.builderDo s specs ns).items).1.2
          err := (visitItems (createVisitor (recording c) (NewKubectlOperations specs ns))
                        ((s, []), none) (c.builderDo s specs ns).items).2 } := by
      simp [KubectlOperation.Execute, KubectlOperation.create, Result.Visit,
        NewKubectlOperations, recording, hb]
    rw [hE]
    exact ⟨n, hn, by simpa [NewKubectlOperations] using hlog, hfull⟩

/-- The manifest `prod/a,db` in namespace `default`: `a` is created in `prod`, `db` in
`default`. -/
theorem recorded_namespaces_demo :
    ((NewKubectlOperations "prod/a,db" "default").Execute (recording namespacedCluster)
        CreateOperation (0, [])).cluster.2 =
      [("prod", { name := "a", ns := "prod" }), ("default", { name := "db", ns := "" })] ∧
    ((NewKubectlOperations "prod/a,db" "default").Execute (recording namespacedCluster)
        CreateOperation (0, [])).err = none := by
  decide

/-- The visit over a run of items that are handed over without error and whose created
objects convert: each of them is handed to `Create` in the expected namespace, and the visit
goes on with the items after them. -/
theorem visitItems_recording_passed {σ O : Type} (c : Cluster σ O) (k : KubectlOperation) :
    ∀ (pre rest : List (Info O × Option Error)) (s : σ) (log : List (String × O))
      (r0 : Option ObjectReference),
      (∀ x ∈ pre, x.2 = none) →
      (∀ x ∈ creations c k s pre, ∃ u, c.toUnstructured x.2.1 = Except.ok u) →
      ∃ s1 r1, visitItems (createVisitor (recording c) k) ((s, log), r0) (pre ++ rest) =
        visitItems (createVisitor (recording c) k)
          ((s1, log ++ pre.map
              (fun it => (if it.1.Namespace = "" then k.ns else it.1.Namespace, it.1.Object))),
            r1) rest := by
  intro pre
  induction pre with
  | nil => intro rest s log r0 _ _; exact ⟨s, r0, by simp⟩
  | cons x pre ih =>
    intro rest s log r0 hflat hconv
    obtain ⟨info, e⟩ := x
    have he : e = none := hflat (info, e) (List.mem_cons_self _ _)
    subst he
    rcases hc : c.helperCreate s info.Mapping (targetNamespace k info) info.Object with
      ⟨s1, obj, cerr⟩
    have hns : targetNamespace k info =
        if info.Namespace = "" then k.ns else info.Namespace := by
      unfold targetNamespace
      by_cases h : info.Namespace = "" <;> simp [h]
    have hcr : creations c k s ((info, none) :: pre) =
        (info, obj, cerr) :: creations c k s1 pre := by
      simp [creations, hc]
    rw [hcr] at hconv
    obtain ⟨u, hu⟩ := hconv (info, obj, cerr) (List.mem_cons_self _ _)
    have hu1 : c.toUnstructured obj = Except.ok u := hu
    have hv : visitItems (createVisitor (recording c) k) ((s, log), r0)
          ((info, none) :: pre ++ rest) =
        visitItems (createVisitor (recording c) k)
          ((s1, log ++ [(targetNamespace k info, info.Object)]),
            some (referenceOf info u)) (pre ++ rest) := by
      simp [visitItems, createVisitor, recording, hc, hu1, referenceOf]
    obtain ⟨s2, r2, h2⟩ := ih rest s1 (log ++ [(targetNamespace k info, info.Object)])
      (some (referenceOf info u)) (fun y hy => hflat y (List.mem_cons_of_mem _ hy))
      (fun y hy => hconv y (List.mem_cons_of_mem _ hy))
    refine ⟨s2, r2, ?_⟩
    rw [hv, h2, hns]
    simp

/-- An item that is handed over without error is handed to `Create` in the expected
namespace, whatever happens afterwards. -/
theorem visitItems_recording_head {σ O : Type} (c : Cluster σ O) (k : KubectlOperation)
    (info : Info O) (post : List (Info O × Option Error)) (s : σ) (log : List (String × O))
    (r0 : Option ObjectReference) :
    ∃ tail, (visitItems (createVisitor (recording c) k) ((s, log), r0)
        ((info, none) :: post)).1.1.2 =
      log ++ (if info.Namespace = "" then k.ns else info.Namespace, info.Object) :: tail := by
  rcases hc : c.helperCreate s info.Mapping (targetNamespace k info) info.Object with
    ⟨s1, obj, cerr⟩
  have hns : targetNamespace k info =
      if info.Namespace = "" then k.ns else info.Namespace := by
    unfold targetNamespace
    by_cases h : info.Namespace = "" <;> simp [h]
  cases hu : c.toUnstructured obj with
  | error e2 =>
    exact ⟨[], by simp [visitItems, createVisitor, recording, hc, hu, ← hns]⟩
  | ok u =>
    obtain ⟨n, _, hlog, _⟩ := visitItems_recording c k post s1
      (log ++ [(targetNamespace k info, info.Object)]) (some (referenceOf info u))
    have hv : visitItems (createVisitor (recording c) k) ((s, log), r0)
          ((info, none) :: post) =
        visitItems (createVisitor (recording c) k)
          ((s1, log ++ [(targetNamespace k info, info.Object)]),
            some (referenceOf info u)) post := by
      simp [visitItems, createVisitor, recording, hc, hu, referenceOf]
    refine ⟨(post.take n).map
      (fun it => (if it.1.Namespace = "" then k.ns else it.1.Namespace, it.1.Object)), ?_⟩
    rw [hv, hlog, hns]
    simp

/-- C11 fails as stated: the manifest `ns1,a`, given with the namespace `default`, holds an
object of a cluster-scoped resource and a config map, neither with a namespace of its own.
Both are handed to `Create` with the namespace `default` and no error is returned, but the
object `ns1` is created in no namespace, not in `default`. -/
theorem Execute_create_cluster_scoped :
    (scopedCluster.builderDo [] "ns1,a" "default").err = none ∧
    (scopedCluster.builderDo [] "ns1,a" "default").items.map (fun it => it.1.Namespace) =
      ["", ""] ∧
    ((NewKubectlOperations "ns1,a" "default").Execute scopedCluster CreateOperation []).err =
      none ∧
    ((NewKubectlOperations "ns1,a" "default").Execute (recording scopedCluster)
        CreateOperation ([], [])).cluster.2.map Prod.fst = ["default", "default"] ∧
    ((NewKubectlOperations "ns1,a" "default").Execute scopedCluster
        CreateOperation []).cluster =
      [{ name := "ns1", ns := "" }, { name := "a", ns := "default" }] ∧
    ¬ (((NewKubectlOperations "ns1,a" "default").Execute scopedCluster
          CreateOperation []).cluster.map (fun o => o.ns) =
        (scopedCluster.builderDo [] "ns1,a" "default").items.map
          (fun it => if it.1.Namespace = "" then "default" else it.1.Namespace)) := by
  decide

/-- C11, amended: every object of the manifest that `Execute(CreateOperation)` reaches (the
manifest flattens without error, the objects before it are handed over without error and
the objects created for them convert to unstructured form, and the object itself is handed
over without error) is handed to `Create` with the namespace set in the object's own spec
when that is not empty, and with the namespace given to `NewKubectlOperations` otherwise;
and the calls of `Create` are those for the first `n` objects of the manifest and no other,
in order, the object reached being among them. -/
theorem Execute_create_namespace_handed {σ O : Type} (c : Cluster σ O) (specs ns : String)
    (s : σ) (pre : List (Info O × Option Error)) (it : Info O × Option Error)
    (post : List (Info O × Option Error))
    (hbuild : (c.builderDo s specs ns).err = none)
    (hitems : (c.builderDo s specs ns).items = pre ++ it :: post)
    (hpre : ∀ x ∈ pre, x.2 = none)
    (hit : it.2 = none)
    (hconv : ∀ x ∈ creations c (NewKubectlOperations specs ns) s pre,
      ∃ u, c.toUnstructured x.2.1 = Except.ok u) :
    ((NewKubectlOperations specs ns).Execute (recording c) CreateOperation
        (s, [])).cluster.2[pre.length]? =
      some (if it.1.Namespace = "" then ns else it.1.Namespace, it.1.Object) ∧
    ∃ n, pre.length < n ∧ n ≤ (c.builderDo s specs ns).items.length ∧
      ((NewKubectlOperations specs ns).Execute (recording c) CreateOperation
          (s, [])).cluster.2 =
        ((c.builderDo s specs ns).items.take n).map
          (fun x => (if x.1.Namespace = "" then ns else x.1.Namespace, x.1.Object)) := by
  have hE : ((NewKubectlOperations specs ns).Execute (recording c) CreateOperation
        (s, [])).cluster.2 =
      (visitItems (createVisitor (recording c) (NewKubectlOperations specs ns))
        ((s, []), none) (pre ++ it :: post)).1.1.2 := by
    simp [KubectlOperation.Execute, KubectlOperation.create, Result.Visit,
      NewKubectlOperations, recording, hbuild, hitems]
  obtain ⟨s1, r1, h1⟩ := visitItems_recording_passed c (NewKubectlOperations specs ns) pre
    (it :: post) s [] none hpre hconv
  obtain ⟨info, e⟩ := it
  have he : e = none := hit
  subst he
  obtain ⟨tail, h2⟩ := visitItems_recording_head c (NewKubectlOperations specs ns) info post
    s1 ([] ++ pre.map (fun x =>
      (if x.1.Namespace = "" then (NewKubectlOperations specs ns).ns else x.1.Namespace,
        x.1.Object))) r1
  have hidx : ((NewKubectlOperations specs ns).Execute (recording c) CreateOperation
        (s, [])).cluster.2[pre.length]? =
      some (if info.Namespace = "" then ns else info.Namespace, info.Object) := by
    rw [hE, h1, h2]
    simp only [List.nil_append, NewKubectlOperations]
    rw [List.getElem?_append_right (by simp)]
    simp
  refine ⟨hidx, ?_⟩
  obtain ⟨n, hn, hlog, _⟩ := Execute_recording_calls c specs ns s
  refine ⟨n, ?_, hn, hlog⟩
  by_contra hlt
  have hle : n ≤ pre.length := Nat.le_of_not_lt hlt
  rw [hlog] at hidx
  have hnone : (((c.builderDo s specs ns).items.take n).map
      (fun x => (if x.1.Namespace = "" then ns else x.1.Namespace, x.1.Object)))[pre.length]? =
      none := by
    apply List.getElem?_eq_none
    simp only [List.length_map, List.length_take]
    omega
  rw [hnone] at hidx
  cases hidx

/-- C11, amended, at the manifest `prod/a,db` given with the namespace `default`: the second
object, `db`, has no namespace of its own and is handed to `Create` with `default`. -/
theorem Execute_create_namespace_handed_witness :
    (namespacedCluster.builderDo 0 "prod/a,db" "default").err = none ∧
    (namespacedCluster.builderDo 0 "prod/a,db" "default").items =
      [({ Namespace := "prod", Mapping := configMapMapping,
          Object := { name := "a", ns := "prod" } }, none)] ++
        ({ Namespace := "", Mapping := configMapMapping,
           Object := { name := "db", ns := "" } }, none) :: [] ∧
    ((NewKubectlOperations "prod/a,db" "default").Execute (recording namespacedCluster)
        CreateOperation (0, [])).cluster.2[1]? =
      some ("default", { name := "db", ns := "" }) :=
  ⟨rfl, rfl,
    (Execute_create_namespace_handed namespacedCluster "prod/a,db" "default" 0
      [({ Namespace := "prod", Mapping := configMapMapping,
          Object := { name := "a", ns := "prod" } }, none)]
      ({ Namespace := "", Mapping := configMapMapping,
         Object := { name := "db", ns := "" } }, none) [] rfl rfl
      (by intro x hx; simp at hx; subst hx; rfl) rfl
      (by
        intro x hx
        simp [creations, namespacedCluster, demoCluster, NewKubectlOperations,
          targetNamespace] at hx
        subst hx
        exact ⟨_, rfl⟩)).1⟩

/-- The visitor of `create` does not read the error `Create` returns. -/
theorem createVisitor_withoutCreateError {σ O : Type} (c : Cluster σ O)
    (k : KubectlOperation) :
    createVisitor (withoutCreateError c) k = createVisitor c k := by
  funext st info err
  cases err with
  | some e => rfl
  | none =>
    rcases hc : c.helperCreate st.1 info.Mapping (targetNamespace k info) info.Object with
      ⟨s1, obj, cerr⟩
    simp [createVisitor, withoutCreateError, hc]

/-- What `Execute` returns does not depend on the errors `Create` returns. -/
theorem Execute_withoutCreateError {σ O : Type} (c : Cluster σ O) (k : KubectlOperation)
    (op : Operation) (s : σ) :
    k.Execute (withoutCreateError c) op s = k.Execute c op s := by
  unfold KubectlOperation.Execute KubectlOperation.create Result.Visit
  rw [createVisitor_withoutCreateError]
  rfl

/-- A step of the visitor that returns, returns what the visitor without panics returns. -/
theorem createVisitorOrPanic_returned {σ O : Type} (c : Cluster σ O) (k : KubectlOperation)
    (st : σ × Option ObjectReference) (info : Info O) (err : Option Error)
    (res : (σ × Option ObjectReference) × Option Error)
    (h : createVisitorOrPanic c k st info err = Run.returned res) :
    res = createVisitor c k st info err := by
  cases err with
  | some e =>
    simp only [createVisitorOrPanic, Run.returned.injEq] at h
    simp [createVisitor, ← h]
  | none =>
    rcases hc : c.helperCreate st.1 info.Mapping (targetNamespace k info) info.Object with
      ⟨s1, obj, cerr⟩
    cases obj with
    | none => simp [createVisitorOrPanic, toUnstructuredOrPanic, hc] at h
    | some o =>
      cases hu : c.toUnstructured (some o) with
      | error e2 =>
        simp only [createVisitorOrPanic, toUnstructuredOrPanic, hc, hu,
          Run.returned.injEq] at h
        simp [createVisitor, hc, hu, ← h]
      | ok u =>
        simp only [createVisitorOrPanic, toUnstructuredOrPanic, hc, hu,
          Run.returned.injEq] at h
        simp [createVisitor, hc, hu, ← h]

/-- A visit that returns, returns what the visit without panics returns. -/
theorem visitItemsOrPanic_returned {σ O : Type} (c : Cluster σ O) (k : KubectlOperation) :
    ∀ (items : List (Info O × Option Error)) (st : σ × Option ObjectReference)
      (res : (σ × Option ObjectReference) × Option Error),
      visitItemsOrPanic (createVisitorOrPanic c k) st items = Run.returned res →
      res = visitItems (createVisitor c k) st items := by
  intro items
  induction items with
  | nil =>
    intro st res h
    simp only [visitItemsOrPanic, Run.returned.injEq] at h
    simp [visitItems, ← h]
  | cons it rest ih =>
    intro st res h
    obtain ⟨info, e⟩ := it
    cases hstep : createVisitorOrPanic c k st info e with
    | panicked message => simp [visitItemsOrPanic, hstep] at h
    | returned r =>
      have hr := createVisitorOrPanic_returned c k st info e r hstep
      obtain ⟨a1, e1⟩ := r
      cases e1 with
      | some e2 =>
        simp only [visitItemsOrPanic, hstep, Run.returned.injEq] at h
        simp [visitItems, ← hr, ← h]
      | none =>
        simp only [visitItemsOrPanic, hstep] at h
        simp only [visitItems, ← hr]
        exact ih a1 res h

/-- When `Execute` returns, it returns what the embedding without panics returns. -/
theorem ExecuteOrPanic_returned {σ O : Type} (c : Cluster σ O) (k : KubectlOperation)
    (op : Operation) (s : σ) (out : Outcome σ)
    (h : ExecuteOrPanic c k op s = Run.returned out) : out = k.Execute c op s := by
  unfold ExecuteOrPanic at h
  unfold KubectlOperation.Execute
  by_cases hop : op = CreateOperation
  · simp only [hop, if_true] at h ⊢
    unfold createOrPanic at h
    unfold KubectlOperation.create Result.Visit
    cases hb : (c.builderDo s k.specs k.ns).err with
    | some e =>
      simp only [hb, Run.returned.injEq] at h
      simp [← h, hb]
    | none =>
      simp only [hb] at h
      cases hv : visitItemsOrPanic (createVisitorOrPanic c k) (s, none)
          (c.builderDo s k.specs k.ns).items with
      | panicked message => simp [hv] at h
      | returned r =>
        have hr := visitItemsOrPanic_returned c k _ _ r hv
        obtain ⟨⟨s1, objRef⟩, err⟩ := r
        simp only [hv, Run.returned.injEq] at h
        simp [← hr, ← h, hb]
  · simp only [hop, if_false, Run.returned.injEq] at h
    simp [hop, ← h]

/-- On a cluster whose `Create` always hands back an object, a step of the visitor does not
panic and returns what the visitor without panics returns. -/
theorem createVisitorOrPanic_of_objects {σ O : Type} (c : Cluster σ O) (k : KubectlOperation)
    (hobj : ∀ s m ns o, (c.helperCreate s m ns o).2.1 ≠ none)
    (st : σ × Option ObjectReference) (info : Info O) (err : Option Error) :
    createVisitorOrPanic c k st info err = Run.returned (createVisitor c k st info err) := by
  cases err with
  | some e => rfl
  | none =>
    have hne := hobj st.1 info.Mapping (targetNamespace k info) info.Object
    rcases hc : c.helperCreate st.1 info.Mapping (targetNamespace k info) info.Object with
      ⟨s1, obj, cerr⟩
    rw [hc] at hne
    cases obj with
    | none => exact absurd rfl hne
    | some o =>
      cases hu : c.toUnstructured (some o) <;>
        simp [createVisitorOrPanic, toUnstructuredOrPanic, createVisitor, hc, hu]

/-- On a cluster whose `Create` always hands back an object, a visit does not panic. -/
theorem visitItemsOrPanic_of_objects {σ O : Type} (c : Cluster σ O) (k : KubectlOperation)
    (hobj : ∀ s m ns o, (c.helperCreate s m ns o).2.1 ≠ none) :
    ∀ (items : List (Info O × Option Error)) (st : σ × Option ObjectReference),
      visitItemsOrPanic (createVisitorOrPanic c k) st items =
        Run.returned (visitItems (createVisitor c k) st items) := by
  intro items
  induction items with
  | nil => intro st; rfl
  | cons it rest ih =>
    intro st
    obtain ⟨info, e⟩ := it
    have hstep := createVisitorOrPanic_of_objects c k hobj st info e
    rcases hr : createVisitor c k st info e with ⟨a1, e1⟩
    rw [hr] at hstep
    cases e1 with
    | some e2 => simp [visitItemsOrPanic, visitItems, hstep, hr]
    | none => simp [visitItemsOrPanic, visitItems, hstep, hr, ih a1]

/-- On a cluster whose `Create` always hands back an object, `Execute` does not panic and
returns what the embedding without panics returns. -/
theorem ExecuteOrPanic_of_objects {σ O : Type} (c : Cluster σ O) (k : KubectlOperation)
    (hobj : ∀ s m ns o, (c.helperCreate s m ns o).2.1 ≠ none) (op : Operation) (s : σ) :
    ExecuteOrPanic c k op s = Run.returned (k.Execute c op s) := by
  unfold ExecuteOrPanic KubectlOperation.Execute
  by_cases hop : op = CreateOperation
  · simp only [hop, if_true]
    unfold createOrPanic KubectlOperation.create Result.Visit
    cases hb : (c.builderDo s k.specs k.ns).err with
    | some e => simp [hb]
    | none =>
      simp only [hb, visitItemsOrPanic_of_objects c k hobj]
  · simp [hop]

/-- Whether `Execute` returns or panics, and what it returns, does not depend on the errors
`Create` returns. -/
theorem ExecuteOrPanic_withoutCreateError {σ O : Type} (c : Cluster σ O)
    (k : KubectlOperation) (op : Operation) (s : σ) :
    ExecuteOrPanic (withoutCreateError c) k op s = ExecuteOrPanic c k op s := by
  have hv : createVisitorOrPanic (withoutCreateError c) k = createVisitorOrPanic c k := by
    funext st info err
    cases err with
    | some e => rfl
    | none =>
      rcases hc : c.helperCreate st.1 info.Mapping (targetNamespace k info) info.Object with
        ⟨s1, obj, cerr⟩
      cases obj <;>
        simp [createVisitorOrPanic, toUnstructuredOrPanic, withoutCreateError, hc]
  unfold ExecuteOrPanic createOrPanic
  rw [hv]
  rfl

/-- On the demonstration cluster, where every creation succeeds, the manifest `a,db` does not
panic: `Execute` returns the reference of `db` and no error. -/
theorem ExecuteOrPanic_demo :
    (ExecuteOrPanic demoCluster (NewKubectlOperations "a,db" "default") CreateOperation
        0).value?.map (fun out => (out.objRef, out.err)) =
      some (some { APIVersion := "v1", Group := "apps", Resource := "deployments",
                   Name := "db", Namespace := "default" }, none) := by
  decide

/-- C12 fails on the code: on a cluster that rejects the creation of the one object of the
manifest `a` (`Create` returns a nil object and a non-nil error), `Execute(CreateOperation)`
does not return a non-nil error: the error of `Create` is not read, the nil object is handed
to `ToUnstructured`, and the call panics. -/
theorem Execute_create_rejection_panics :
    (rejectingCluster.builderDo 0 "a" "default").err = none ∧
    (rejectingCluster.builderDo 0 "a" "default").items.length = 1 ∧
    (creations rejectingCluster (NewKubectlOperations "a" "default") 0
        (rejectingCluster.builderDo 0 "a" "default").items).map (fun x => (x.2.1, x.2.2)) =
      [(none, some "already exists")] ∧
    ExecuteOrPanic rejectingCluster (NewKubectlOperations "a" "default") CreateOperation 0 =
      Run.panicked "runtime error: invalid memory address or nil pointer dereference" ∧
    ¬ ∃ out : Outcome Nat,
        ExecuteOrPanic rejectingCluster (NewKubectlOperations "a" "default")
          CreateOperation 0 = Run.returned out := by
  have hp : ExecuteOrPanic rejectingCluster (NewKubectlOperations "a" "default")
      CreateOperation 0 =
      Run.panicked "runtime error: invalid memory address or nil pointer dereference" := rfl
  refine ⟨rfl, rfl, by decide, hp, ?_⟩
  rintro ⟨out, hout⟩
  rw [hp] at hout
  cases hout

end kube

/-! ## restore_csi_snapshot_test.go -/

namespace function

/-- C5: `validateVolumeModeArg` returns nil exactly when the volume mode of the arguments is
`Filesystem` or `Block`, and an error otherwise (so for the mode `test` of the test); the
result does not change when the access modes of the arguments are changed. -/
theorem validateVolumeModeArg_recognised (a : restoreCSISnapshotArgs) :
    (validateVolumeModeArg a = none ↔ (a.VolumeMode = "Filesystem" ∨ a.VolumeMode = "Block")) ∧
    ((∃ e, validateVolumeModeArg a = some e) ↔
      ¬ (a.VolumeMode = "Filesystem" ∨ a.VolumeMode = "Block")) ∧
    (∀ modes, validateVolumeModeArg { a with AccessModes := modes } =
      validateVolumeModeArg a) ∧
    (∃ e, validateVolumeModeArg { a with VolumeMode := "test" } = some e) ∧
    validateVolumeModeArg { a with VolumeMode := "Filesystem" } = none := by
  have hmem : ∀ m : String, m ∈ recognisedVolumeModes ↔ (m = "Filesystem" ∨ m = "Block") := by
    intro m
    simp [recognisedVolumeModes, PersistentVolumeFilesystem, PersistentVolumeBlock]
  refine ⟨?_, ?_, fun _ => rfl, ?_, ?_⟩
  · unfold validateVolumeModeArg
    by_cases h : a.VolumeMode ∈ recognisedVolumeModes
    · simp [h, (hmem _).mp h]
    · simp only [h, if_false]
      constructor
      · intro h2; cases h2
      · intro h2; exact absurd ((hmem _).mpr h2) h
  · unfold validateVolumeModeArg
    by_cases h : a.VolumeMode ∈ recognisedVolumeModes
    · simp [h, (hmem _).mp h]
    · simp only [h, if_false]
      constructor
      · intro _ h2; exact h ((hmem _).mpr h2)
      · intro _; exact ⟨_, rfl⟩
  · exact ⟨"Given volumeMode test is invalid", by
      simp [validateVolumeModeArg, recognisedVolumeModes, PersistentVolumeFilesystem,
        PersistentVolumeBlock]⟩
  · simp [validateVolumeModeArg, recognisedVolumeModes, PersistentVolumeFilesystem]

/-- The loop over the access modes returns nil exactly when every mode is recognised. -/
theorem validateAccessModes_none (modes : List String) :
    validateAccessModes modes = none ↔ ∀ m ∈ modes, m ∈ recognisedAccessModes := by
  induction modes with
  | nil => simp [validateAccessModes]
  | cons mode rest ih =>
    by_cases h : mode ∈ recognisedAccessModes
    · simp [validateAccessModes, h, ih]
    · simp [validateAccessModes, h]

/-- C6: `validateVolumeAccessModesArg` returns nil exactly when every access mode of the
arguments is one Kubernetes defines, and an error exactly when some access mode is not (so
for the modes `test` of the test, and nil for `ReadWriteOnce`). -/
theorem validateVolumeAccessModesArg_recognised (a : restoreCSISnapshotArgs) :
    (validateVolumeAccessModesArg a = none ↔
      ∀ m ∈ a.AccessModes.getD [], m ∈ recognisedAccessModes) ∧
    ((∃ e, validateVolumeAccessModesArg a = some e) ↔
      ∃ m ∈ a.AccessModes.getD [], m ∉ recognisedAccessModes) ∧
    (∃ e, validateVolumeAccessModesArg { a with AccessModes := some ["test"] } = some e) ∧
    validateVolumeAccessModesArg { a with AccessModes := some ["ReadWriteOnce"] } = none := by
  have h1 := validateAccessModes_none (a.AccessModes.getD [])
  refine ⟨h1, ?_, ?_, ?_⟩
  · unfold validateVolumeAccessModesArg
    constructor
    · rintro ⟨e, he⟩
      by_contra hne
      push_neg at hne
      rw [h1.mpr hne] at he
      cases he
    · rintro ⟨m, hm, hnot⟩
      cases hv : validateAccessModes (a.AccessModes.getD []) with
      | none => exact absurd (h1.mp hv m hm) hnot
      | some e => exact ⟨e, rfl⟩
  · exact ⟨"Given accessMode test is invalid", by
      simp [validateVolumeAccessModesArg, validateAccessModes, recognisedAccessModes,
        ReadWriteOnce, ReadOnlyMany, ReadWriteMany, ReadWriteOncePod]⟩
  · simp [validateVolumeAccessModesArg, validateAccessModes, recognisedAccessModes,
      ReadWriteOnce]

/-- C7: the manifest `newPVCManifest` returns is named `a.PVC`; for the arguments of the test
this is the name of the new claim, not the name of the snapshot and not the name of the
original claim. -/
theorem newPVCManifest_name (a : restoreCSISnapshotArgs) :
    (newPVCManifest a).Name = a.PVC ∧
    (newPVCManifest testRestoreArgs).Name = RestoreCSISnapshotNewPVCName ∧
    (newPVCManifest testRestoreArgs).Name ≠ RestoreCSISnapshotSnapshotName ∧
    (newPVCManifest testRestoreArgs).Name ≠ RestoreCSISnapshotOriginalPVCName :=
  ⟨rfl, rfl, by decide, by decide⟩

end function

/-! ## process_client_get.go -/

namespace kando

/-- C8: for a single argument that parses as a PID, when the address flag resolves and
`kanx.GetProcess` returns a process `p` without error, `runProcessClientGetWithOutput`
returns nil and leaves `out` unchanged if the quiet flag is set (whatever the JSON flag);
otherwise, if the JSON flag is set and the encoding succeeds with `buf`, it returns nil and
writes the line `buf`; otherwise it returns nil and writes the line made of `Process: `, a
space and `p`. -/
theorem runProcessClientGet_output {F P : Type} (env : ProcessClient F P) (out : String)
    (cmd : Command F) (arg : String) (pid : Int) (addr : String) (p : P)
    (hpid : env.parseInt arg = Except.ok pid)
    (haddr : env.processAddressFlagValue cmd = Except.ok addr)
    (hget : env.getProcess addr pid = Except.ok p) :
    ∃ r, runProcessClientGetWithOutput env out cmd [arg] = some r ∧
      (env.processAsQuietFlagValue cmd = true → r.err = none ∧ r.out = out) ∧
      (env.processAsQuietFlagValue cmd = false → env.processAsJSONFlagValue cmd = true →
        ∀ buf, env.protojsonMarshal p = Except.ok buf →
          r.err = none ∧ r.out = out ++ buf ++ "\n") ∧
      (env.processAsQuietFlagValue cmd = false → env.processAsJSONFlagValue cmd = false →
        r.err = none ∧ r.out = out ++ ("Process: " ++ " " ++ env.format p) ++ "\n") := by
  cases hq : env.processAsQuietFlagValue cmd with
  | true =>
    exact ⟨_, by simp [runProcessClientGetWithOutput, hpid, haddr, hget, hq]; rfl, by simp⟩
  | false =>
    cases hj : env.processAsJSONFlagValue cmd with
    | true =>
      cases hm : env.protojsonMarshal p with
      | error e =>
        exact ⟨_, by simp [runProcessClientGetWithOutput, hpid, haddr, hget, hq, hj, hm]; rfl,
          by simp⟩
      | ok buf =>
        refine ⟨_, by simp [runProcessClientGetWithOutput, hpid, haddr, hget, hq, hj, hm]; rfl,
          by simp, ?_, by simp⟩
        intro _ _ buf2 hbuf2
        cases hbuf2
        simp [Fprintln, String.intercalate, String.intercalate.go]
    | false =>
      refine ⟨_, by simp [runProcessClientGetWithOutput, hpid, haddr, hget, hq, hj]; rfl,
        by simp, by simp, ?_⟩
      intro _ _
      simp [Fprintln, String.intercalate, String.intercalate.go, String.append_assoc]

/-- C8 at the demonstration client: PID 42, neither quiet nor JSON. -/
theorem runProcessClientGet_output_witness :
    demoClient.parseInt "42" = Except.ok 42 ∧
    demoClient.processAddressFlagValue (demoCommand false false) = Except.ok "localhost:7000" ∧
    demoClient.getProcess "localhost:7000" 42 = Except.ok "pid:42 state:RUNNING" ∧
    ∃ r, runProcessClientGetWithOutput demoClient "" (demoCommand false false) ["42"] = some r ∧
      r.err = none ∧ r.out = "Process:  pid:42 state:RUNNING\n" :=
  ⟨rfl, rfl, rfl,
    match runProcessClientGet_output demoClient "" (demoCommand false false) "42" 42
      "localhost:7000" "pid:42 state:RUNNING" rfl rfl rfl with
    | ⟨r, hr, _, _, h3⟩ => ⟨r, hr, (h3 rfl rfl).1, (h3 rfl rfl).2⟩⟩

end kando

/-! ## handler.go -/

namespace handler

/-- C9: for every request, `healthCheckHandler.ServeHTTP` answers on a fresh response writer
with status 200 and a body that is the JSON encoding of `Info{Alive: true, Version: VERSION}`,
the object with `alive` set to true and `version` set to the build version; marshalling does
not fail, so the status is never 500. -/
theorem ServeHTTP_status_ok (VERSION : String) (quote : String → String) (r : Request) :
    jsonMarshal quote { Alive := true, Version := VERSION } =
      Except.ok ("\x7b\"alive\":true,\"version\":" ++ quote VERSION ++ "\x7d") ∧
    (ServeHTTP VERSION quote ResponseWriter.fresh r).wroteHeader = true ∧
    (ServeHTTP VERSION quote ResponseWriter.fresh r).status = 200 ∧
    (ServeHTTP VERSION quote ResponseWriter.fresh r).status ≠ StatusInternalServerError ∧
    Except.ok (ServeHTTP VERSION quote ResponseWriter.fresh r).body =
      jsonMarshal quote { Alive := true, Version := VERSION } ∧
    (ServeHTTP VERSION quote ResponseWriter.fresh r).body =
      "\x7b\"alive\":true,\"version\":" ++ quote VERSION ++ "\x7d" := by
  have hm : jsonMarshal quote { Alive := true, Version := VERSION } =
      Except.ok ("\x7b\"alive\":true,\"version\":" ++ quote VERSION ++ "\x7d") := by
    have hl : "\x7b\"alive\":true,\"version\":" =
        "\x7b" ++ ("\"" ++ ("alive" ++ ("\":" ++ ("true" ++ ("," ++ ("\"" ++ ("version" ++
          "\":"))))))) := by decide
    simp only [jsonMarshal, encodeFields, encodeValue, Info.fields, String.intercalate,
      String.intercalate.go]
    rw [hl]
    simp only [String.append_assoc]
  have hs : ServeHTTP VERSION quote ResponseWriter.fresh r =
      { header := [("Content-Type", "application/json")], wroteHeader := true, status := 200,
        sentHeader := [],
        body := "" ++ ("\x7b\"alive\":true,\"version\":" ++ quote VERSION ++ "\x7d") } := by
    simp only [ServeHTTP, hm]
    rfl
  rw [hs, hm]
  refine ⟨rfl, rfl, rfl, by simp [StatusInternalServerError], ?_, ?_⟩ <;> simp

end handler

/-! ## The aggregate state of an ActionSet -/

/-- The rule of the aggregate state on a list of action states. -/
theorem aggregateState_cases (actions : List RunState) :
    (RunState.Failed ∈ actions → aggregateState actions = SetState.Failed) ∧
    (aggregateState actions = SetState.Complete ↔ ∀ s ∈ actions, s = RunState.Succeeded) ∧
    (RunState.Failed ∉ actions → ¬ (∀ s ∈ actions, s = RunState.Succeeded) →
      aggregateState actions = SetState.Running) := by
  have hall : (actions.all (fun a => decide (a = RunState.Succeeded)) = true) ↔
      ∀ s ∈ actions, s = RunState.Succeeded := by simp
  unfold aggregateState
  by_cases hf : RunState.Failed ∈ actions
  · refine ⟨fun _ => by simp [hf], ?_, fun h => absurd hf h⟩
    rw [if_pos hf]
    constructor
    · intro h; cases h
    · intro h; exact absurd (h _ hf) (by decide)
  · rw [if_neg hf]
    by_cases hs : ∀ s ∈ actions, s = RunState.Succeeded
    · rw [if_pos (hall.mpr hs)]
      exact ⟨fun h => absurd h hf, ⟨fun _ => hs, fun _ => rfl⟩, fun _ h => absurd hs h⟩
    · rw [if_neg (fun h => hs (hall.mp h))]
      refine ⟨fun h => absurd h hf, ⟨?_, fun h => absurd h hs⟩, fun _ _ => rfl⟩
      intro h; cases h

/-- C10: for every ActionSet, the aggregate state is Failed if at least one of its actions is
Failed, Complete if and only if every one of its actions is Succeeded, and Running in every
other case. -/
theorem ActionSet_aggregateState_rule (actionState : ActionStatus → RunState)
    (a : ActionSet) :
    ((∃ st ∈ a.statusActions, actionState st = RunState.Failed) →
      a.aggregateState actionState = SetState.Failed) ∧
    (a.aggregateState actionState = SetState.Complete ↔
      ∀ st ∈ a.statusActions, actionState st = RunState.Succeeded) ∧
    ((¬ ∃ st ∈ a.statusActions, actionState st = RunState.Failed) →
      (¬ ∀ st ∈ a.statusActions, actionState st = RunState.Succeeded) →
      a.aggregateState actionState = SetState.Running) := by
  obtain ⟨h1, h2, h3⟩ := aggregateState_cases (a.statusActions.map actionState)
  unfold ActionSet.aggregateState
  refine ⟨?_, ?_, ?_⟩
  · rintro ⟨st, hst, hf⟩
    exact h1 (List.mem_map.mpr ⟨st, hst, hf⟩)
  · rw [h2]
    simp
  · intro hnf hns
    apply h3
    · intro hmem
      obtain ⟨st, hst, hf⟩ := List.mem_map.mp hmem
      exact hnf ⟨st, hst, hf⟩
    · intro hall
      apply hns
      intro st hst
      exact hall _ (List.mem_map.mpr ⟨st, hst, rfl⟩)

end Kanister
